import Mathlib

/-! Ceph pool provider: lifecycle controller and control-plane client.

A shallow embedding of `internal/provider/client.go` and
`internal/provider/resource_pool.go`.

* Terraform attribute values (`types.String`, `types.Int64`) are three-state:
  null, unknown, or a known value.  `ValueString` / `ValueInt64` read the zero
  value out of a null or unknown attribute.
* A Go `error` is only ever inspected through `Error()`, so an error is its
  message (`String`) and `Option String` stands for a possibly-nil `error`.
* The HTTP transport is an explicit environment: `Env.roundTrip` answers a
  request given the requests sent before it.  The client's mutable state (the
  token) and the list of requests sent so far travel in `World`.
* `int64` values are `Int`; `int(x)` on a 64-bit platform is the identity.
-/

namespace CephProvider

/-! ## Terraform attribute values -/

/-- Embedding of `types.String`: null, unknown or a known string. -/
inductive TfString where
  | null : TfString
  | unknown : TfString
  | value (s : String) : TfString
  deriving DecidableEq, Repr

/-- Embedding of `types.Int64`: null, unknown or a known 64-bit integer. -/
inductive TfInt64 where
  | null : TfInt64
  | unknown : TfInt64
  | value (n : Int) : TfInt64
  deriving DecidableEq, Repr

/-- Embedding of `types.String.IsNull`. -/
def TfString.IsNull : TfString → Bool
  | .null => true
  | _ => false

/-- Embedding of `types.String.ValueString`: the empty string when null or unknown. -/
def TfString.ValueString : TfString → String
  | .value s => s
  | _ => ""

/-- Embedding of `types.Int64.IsNull`. -/
def TfInt64.IsNull : TfInt64 → Bool
  | .null => true
  | _ => false

/-- Embedding of `types.Int64.ValueInt64`: zero when null or unknown. -/
def TfInt64.ValueInt64 : TfInt64 → Int
  | .value n => n
  | _ => 0

/-- Embedding of `PoolResourceModel` (models.go). -/
structure PoolResourceModel where
  ID : TfString
  Name : TfString
  PoolType : TfString
  PgNum : TfInt64
  PgpNum : TfInt64
  Size : TfInt64
  Application : TfString
  deriving DecidableEq, Repr

/-! ## Diagnostics -/

/-- Severity of a diagnostic. -/
inductive Severity where
  | error : Severity
  | warning : Severity
  deriving DecidableEq, Repr

/-- One entry of `resp.Diagnostics`: severity, summary and detail. -/
structure Diagnostic where
  severity : Severity
  summary : String
  detail : String
  deriving DecidableEq, Repr

/-- Embedding of `Diagnostics.AddError`. -/
def AddError (ds : List Diagnostic) (summary detail : String) : List Diagnostic :=
  ds ++ [{ severity := .error, summary := summary, detail := detail }]

/-- Embedding of `Diagnostics.AddWarning`. -/
def AddWarning (ds : List Diagnostic) (summary detail : String) : List Diagnostic :=
  ds ++ [{ severity := .warning, summary := summary, detail := detail }]

/-- The error diagnostics of a list. -/
def errorsOf (ds : List Diagnostic) : List Diagnostic :=
  ds.filter (fun d => d.severity = .error)

/-- The warning diagnostics of a list. -/
def warningsOf (ds : List Diagnostic) : List Diagnostic :=
  ds.filter (fun d => d.severity = .warning)

/-- Embedding of `Diagnostics.HasError`. -/
def HasError (ds : List Diagnostic) : Bool :=
  ds.any (fun d => d.severity = .error)

/-! ## JSON encoding (the part of `encoding/json` that `json.Marshal` uses here) -/

/-- Hexadecimal digit, lower case, of a number below 16. -/
def hexDigit (n : Nat) : Char :=
  if n < 10 then Char.ofNat (48 + n) else Char.ofNat (87 + n)

/-- Escape of one character inside a JSON string as `json.Marshal` writes it
(HTML escaping on): quote and backslash are backslash-escaped; newline,
carriage return, tab, backspace and form feed get their short escapes; the
other control characters below 0x20 and the characters less-than,
greater-than and ampersand are written as a u-escape with four hex digits;
so are U+2028 and U+2029; every other character is written as it is. -/
def escapeChar (c : Char) : String :=
  if c = '"' then "\\\""
  else if c = '\\' then "\\\\"
  else if c = '\n' then "\\n"
  else if c = '\r' then "\\r"
  else if c = '\t' then "\\t"
  else if c.toNat = 8 then "\\b"
  else if c.toNat = 12 then "\\f"
  else if c.toNat < 32 ∨ c = '<' ∨ c = '>' ∨ c = '&' then
    String.mk ['\\', 'u', '0', '0', hexDigit (c.toNat / 16), hexDigit (c.toNat % 16)]
  else if c.toNat = 8232 then "\\u2028"
  else if c.toNat = 8233 then "\\u2029"
  else String.mk [c]

/-- A JSON string literal: the escaped characters between double quotes. -/
def quoteString (s : String) : String :=
  "\"" ++ String.join (s.toList.map escapeChar) ++ "\""

/-- Decimal digits of a natural number, most significant first (`fuel` bounds the length). -/
def natDigits : Nat → Nat → List Char
  | 0, _ => []
  | fuel + 1, n =>
    if n < 10 then [Char.ofNat (48 + n)]
    else natDigits fuel (n / 10) ++ [Char.ofNat (48 + n % 10)]

/-- Decimal rendering of an integer, as `strconv.AppendInt` writes it. -/
def renderInt (n : Int) : String :=
  match n with
  | .ofNat k => String.mk (natDigits (k + 1) k)
  | .negSucc k => "-" ++ String.mk (natDigits (k + 2) (k + 1))

/-- A JSON value as far as the request bodies need it: a string or an integer. -/
inductive JsonField where
  | str (s : String) : JsonField
  | num (n : Int) : JsonField
  deriving DecidableEq, Repr

/-- Rendering of one field value. -/
def JsonField.render : JsonField → String
  | .str s => quoteString s
  | .num n => renderInt n

/-- Rendering of a JSON object given as its fields in order. -/
def renderObject (fields : List (String × JsonField)) : String :=
  "\x7b" ++ String.intercalate "," (fields.map (fun kv => quoteString kv.1 ++ ":" ++ kv.2.render)) ++ "\x7d"

/-! ## The control-plane client (client.go) -/

/-- Embedding of `CephClient` (the `HTTPClient` field is the environment). -/
structure CephClient where
  Endpoint : String
  Username : String
  Password : String
  Token : String
  deriving DecidableEq, Repr

/-- Embedding of `PoolCreateRequest`. -/
structure PoolCreateRequest where
  Pool : String
  PoolType : String
  PgNum : Int
  PgpNum : Int
  Size : Int
  Application : String
  deriving DecidableEq, Repr

/-- An HTTP request as the client builds it. -/
structure HttpRequest where
  method : String
  url : String
  headers : List (String × String)
  body : String
  deriving DecidableEq, Repr

/-- Outcome of `HTTPClient.Do`: a transport error or a response (status, body). -/
inductive HttpResult where
  | transportError (msg : String) : HttpResult
  | response (status : Nat) (body : String) : HttpResult
  deriving DecidableEq, Repr

/-- A finite `float64`, the value `mant * 2 ^ exp`.  A JSON number decodes to a
finite `float64` only (an out-of-range literal is a decode error). -/
structure Float64 where
  mant : Int
  exp : Int
  deriving DecidableEq, Repr

/-- Embedding of the Go conversion `int64(f)`: the fraction is discarded
(truncation toward zero).  A value outside the `int64` range converts to an
implementation-specific result; the amd64 one, `-2^63`, is used. -/
def Float64.toInt64 (f : Float64) : Int :=
  let t := if 0 ≤ f.exp then f.mant * 2 ^ f.exp.toNat else Int.tdiv f.mant (2 ^ (-f.exp).toNat)
  if -(2 ^ 63) ≤ t ∧ t < 2 ^ 63 then t else -(2 ^ 63)

/-- A decoded JSON value, the dynamic content of a Go `interface{}` after
`json.Decode`: nil, bool, float64, string, slice or map.  A map is the list of
its entries in the order this run of the program iterates them. -/
inductive JsonValue where
  | null : JsonValue
  | bool (b : Bool) : JsonValue
  | number (f : Float64) : JsonValue
  | string (s : String) : JsonValue
  | array (xs : List JsonValue) : JsonValue
  | object (kvs : List (String × JsonValue)) : JsonValue

/-- Embedding of `map[string]interface{}`, the decoded pool payload. -/
abbrev PoolData := List (String × JsonValue)

/-- Client state and the requests handed to `HTTPClient.Do` so far, oldest first. -/
structure World where
  client : CephClient
  sent : List HttpRequest
  deriving DecidableEq, Repr

/-- The surroundings of the client.  `newRequestError` is the error of
`http.NewRequest` for a method and URL (`none` when the request is built),
`roundTrip` is `HTTPClient.Do` given the requests sent before, and the two
decoders are `json.NewDecoder(body).Decode` into `AuthResponse` (its token) and
into `map[string]interface{}`.  `SetPoolProperty` and `SetApplication` are the
two client methods the controller calls whose bodies are not in `client.go`:
each returns its error and the world it leaves. -/
structure Env where
  newRequestError : String → String → Option String
  roundTrip : List HttpRequest → HttpRequest → HttpResult
  decodeAuthResponse : String → Except String String
  decodePool : String → Except String PoolData
  SetPoolProperty : World → String → String → Int → Option String × World
  SetApplication : World → String → String → Option String × World

/-- Rendering of a status code with `%d`. -/
def renderStatus (status : Nat) : String :=
  renderInt (Int.ofNat status)

/-- The world once a request has been handed to `HTTPClient.Do`: it joins the log. -/
def World.send (w : World) (req : HttpRequest) : World :=
  { w with sent := w.sent ++ [req] }

/-- Embedding of `CephClient.Authenticate`. -/
def Authenticate (env : Env) (w : World) : Option String × World :=
  let body := renderObject [("username", .str w.client.Username), ("password", .str w.client.Password)]
  let url := w.client.Endpoint ++ "/api/auth"
  match env.newRequestError "POST" url with
  | some err => (some ("failed to create auth request: " ++ err), w)
  | none =>
    let req : HttpRequest :=
      { method := "POST", url := url, headers := [("Content-Type", "application/json")], body := body }
    let w1 := w.send req
    match env.roundTrip w.sent req with
    | .transportError err => (some ("authentication request failed: " ++ err), w1)
    | .response status respBody =>
      if status ≠ 201 ∧ status ≠ 200 then
        (some ("authentication failed with status " ++ renderStatus status ++ ": " ++ respBody), w1)
      else
        match env.decodeAuthResponse respBody with
        | .error err => (some ("failed to decode auth response: " ++ err), w1)
        | .ok token => (none, { w1 with client := { w1.client with Token := token } })

/-- The lazy authentication that opens `CreatePool`, `GetPool` and `DeletePool`:
`if c.Token == "" { if err := c.Authenticate(); err != nil { return err } }`. -/
def ensureToken (env : Env) (w : World) : Option String × World :=
  if w.client.Token = "" then Authenticate env w else (none, w)

/-- The fields `json.Marshal` writes for a `PoolCreateRequest`, in struct order;
a field tagged `omitempty` is left out when it holds its zero value. -/
def poolCreateFields (r : PoolCreateRequest) : List (String × JsonField) :=
  [("pool", .str r.Pool), ("pool_type", .str r.PoolType)]
    ++ (if r.PgNum = 0 then [] else [("pg_num", .num r.PgNum)])
    ++ (if r.PgpNum = 0 then [] else [("pgp_num", .num r.PgpNum)])
    ++ (if r.Size = 0 then [] else [("size", .num r.Size)])
    ++ (if r.Application = "" then [] else [("application", .str r.Application)])

/-- Embedding of `CephClient.CreatePool`. -/
def CreatePool (env : Env) (w : World) (poolReq : PoolCreateRequest) : Option String × World :=
  match ensureToken env w with
  | (some err, w0) => (some err, w0)
  | (none, w0) =>
    let body := renderObject (poolCreateFields poolReq)
    let url := w0.client.Endpoint ++ "/api/pool"
    match env.newRequestError "POST" url with
    | some err => (some ("failed to create pool request: " ++ err), w0)
    | none =>
      let req : HttpRequest :=
        { method := "POST", url := url,
          headers := [("Content-Type", "application/json"), ("Authorization", "Bearer " ++ w0.client.Token)],
          body := body }
      let w1 := w0.send req
      match env.roundTrip w0.sent req with
      | .transportError err => (some ("create pool request failed: " ++ err), w1)
      | .response status respBody =>
        if status ≠ 201 ∧ status ≠ 200 then
          (some ("failed to create pool with status " ++ renderStatus status ++ ": " ++ respBody), w1)
        else (none, w1)

/-- Embedding of `CephClient.GetPool`. -/
def GetPool (env : Env) (w : World) (poolName : String) : Except String PoolData × World :=
  match ensureToken env w with
  | (some err, w0) => (.error err, w0)
  | (none, w0) =>
    let url := w0.client.Endpoint ++ "/api/pool/" ++ poolName
    match env.newRequestError "GET" url with
    | some err => (.error ("failed to create get pool request: " ++ err), w0)
    | none =>
      let req : HttpRequest :=
        { method := "GET", url := url, headers := [("Authorization", "Bearer " ++ w0.client.Token)], body := "" }
      let w1 := w0.send req
      match env.roundTrip w0.sent req with
      | .transportError err => (.error ("get pool request failed: " ++ err), w1)
      | .response status respBody =>
        if status = 404 then (.error "pool not found", w1)
        else if status ≠ 200 then
          (.error ("failed to get pool with status " ++ renderStatus status ++ ": " ++ respBody), w1)
        else
          match env.decodePool respBody with
          | .error err => (.error ("failed to decode pool response: " ++ err), w1)
          | .ok pool => (.ok pool, w1)

/-- Embedding of `CephClient.DeletePool`. -/
def DeletePool (env : Env) (w : World) (poolName : String) : Option String × World :=
  match ensureToken env w with
  | (some err, w0) => (some err, w0)
  | (none, w0) =>
    let url := w0.client.Endpoint ++ "/api/pool/" ++ poolName
    match env.newRequestError "DELETE" url with
    | some err => (some ("failed to create delete pool request: " ++ err), w0)
    | none =>
      let req : HttpRequest :=
        { method := "DELETE", url := url, headers := [("Authorization", "Bearer " ++ w0.client.Token)], body := "" }
      let w1 := w0.send req
      match env.roundTrip w0.sent req with
      | .transportError err => (some ("delete pool request failed: " ++ err), w1)
      | .response status respBody =>
        if status ≠ 204 ∧ status ≠ 200 ∧ status ≠ 202 then
          (some ("failed to delete pool with status " ++ renderStatus status ++ ": " ++ respBody), w1)
        else (none, w1)

/-! ## The pool lifecycle controller (resource_pool.go) -/

/-- A call the controller makes on the client. -/
inductive ClientCall where
  | createPool (req : PoolCreateRequest) : ClientCall
  | getPool (poolName : String) : ClientCall
  | deletePool (poolName : String) : ClientCall
  | setPoolProperty (poolName : String) (property : String) (value : Int) : ClientCall
  | setApplication (poolName : String) (application : String) : ClientCall
  deriving DecidableEq, Repr

/-- What a lifecycle operation leaves behind: its diagnostics, the model it
handed to `resp.State.Set` (`none` when `Set` was not reached), whether it
called `resp.State.RemoveResource`, the client calls it made in order, each
with the error the call returned, and the world after it. -/
structure Outcome where
  diagnostics : List Diagnostic
  state : Option PoolResourceModel
  removed : Bool
  calls : List (ClientCall × Option String)
  world : World

/-- The request `Create` builds from the plan (resource_pool.go, lines 130-165). -/
def createRequest (plan : PoolResourceModel) : PoolCreateRequest :=
  let poolName := plan.Name.ValueString
  let poolType := if !plan.PoolType.IsNull then plan.PoolType.ValueString else "replicated"
  let pgNum : Int := if !plan.PgNum.IsNull then plan.PgNum.ValueInt64 else 32
  let pgpNum : Int := if !plan.PgpNum.IsNull then plan.PgpNum.ValueInt64 else pgNum
  let size : Int := if !plan.Size.IsNull then plan.Size.ValueInt64 else 3
  let application := if !plan.Application.IsNull then plan.Application.ValueString else ""
  { Pool := poolName, PoolType := poolType, PgNum := pgNum, PgpNum := pgpNum, Size := size,
    Application := application }

/-- The model `Create` saves (resource_pool.go, lines 187-195): the plan with
the id and the computed values filled in from the resolved request. -/
def createdState (plan : PoolResourceModel) (poolReq : PoolCreateRequest) : PoolResourceModel :=
  { plan with
    ID := .value poolReq.Pool
    PoolType := .value poolReq.PoolType
    PgNum := .value poolReq.PgNum
    PgpNum := .value poolReq.PgpNum
    Size := .value poolReq.Size
    Application := if poolReq.Application ≠ "" then .value poolReq.Application else plan.Application }

/-- Embedding of `poolResource.Create`, from the plan already read out of the request. -/
def Create (env : Env) (w : World) (plan : PoolResourceModel) : Outcome :=
  let poolReq := createRequest plan
  let poolName := poolReq.Pool
  let application := poolReq.Application
  match CreatePool env w poolReq with
  | (some err, w1) =>
    { diagnostics := AddError [] "Error Creating Ceph Pool"
        ("Could not create pool " ++ poolName ++ ": " ++ err),
      state := none, removed := false, calls := [(.createPool poolReq, some err)], world := w1 }
  | (none, w1) =>
    if application ≠ "" then
      match env.SetApplication w1 poolName application with
      | (some err, w2) =>
        { diagnostics := AddWarning [] "Error Setting Pool Application"
            ("Pool created but could not set application " ++ application ++ ": " ++ err),
          state := some (createdState plan poolReq), removed := false,
          calls := [(.createPool poolReq, none), (.setApplication poolName application, some err)],
          world := w2 }
      | (none, w2) =>
        { diagnostics := [], state := some (createdState plan poolReq), removed := false,
          calls := [(.createPool poolReq, none), (.setApplication poolName application, none)],
          world := w2 }
    else
      { diagnostics := [], state := some (createdState plan poolReq), removed := false,
        calls := [(.createPool poolReq, none)], world := w1 }

/-- The defensive decoding `Read` (lines 228-250) and `Update` (lines 339-361)
both apply to a model: each type assertion that succeeds overwrites its field,
each that fails leaves the field alone; the application is the first key the
iteration over `application_metadata` yields. -/
def applyPoolData (m : PoolResourceModel) (poolData : PoolData) : PoolResourceModel :=
  let m1 := match poolData.lookup "type" with
    | some (.string poolType) => { m with PoolType := .value poolType }
    | _ => m
  let m2 := match poolData.lookup "pg_num" with
    | some (.number pgNum) => { m1 with PgNum := .value pgNum.toInt64 }
    | _ => m1
  let m3 := match poolData.lookup "pgp_num" with
    | some (.number pgpNum) => { m2 with PgpNum := .value pgpNum.toInt64 }
    | _ => m2
  let m4 := match poolData.lookup "size" with
    | some (.number size) => { m3 with Size := .value size.toInt64 }
    | _ => m3
  match poolData.lookup "application_metadata" with
  | some (.object ((app, _) :: _)) => { m4 with Application := .value app }
  | _ => m4

/-- Embedding of `poolResource.Read`, from the prior state already read out of the request. -/
def Read (env : Env) (w : World) (state : PoolResourceModel) : Outcome :=
  let poolName := state.Name.ValueString
  match GetPool env w poolName with
  | (.error err, w1) =>
    if err = "pool not found" then
      { diagnostics := [], state := none, removed := true,
        calls := [(.getPool poolName, some err)], world := w1 }
    else
      { diagnostics := AddError [] "Error Reading Ceph Pool"
          ("Could not read pool " ++ poolName ++ ": " ++ err),
        state := none, removed := false, calls := [(.getPool poolName, some err)], world := w1 }
  | (.ok poolData, w1) =>
    { diagnostics := [], state := some (applyPoolData state poolData), removed := false,
      calls := [(.getPool poolName, none)], world := w1 }

/-- The test `Update` applies to each numeric field (lines 272, 286, 300): the
plan's field is not null and its value is not the value of the state's field. -/
def numberChanged (plan state : TfInt64) : Bool :=
  !plan.IsNull && plan.ValueInt64 != state.ValueInt64

/-- The test `Update` applies to the application (lines 314-315): the plan's
field is not null, and the state's field is null or holds another string. -/
def applicationChanged (plan state : TfString) : Bool :=
  !plan.IsNull && (state.IsNull || plan.ValueString != state.ValueString)

/-- The refresh that closes `Update` (lines 328-365): when something changed the
pool is read again and decoded over the plan, and the plan is saved. -/
def updateRefresh (env : Env) (w : World) (plan : PoolResourceModel) (changed : Bool)
    (calls : List (ClientCall × Option String)) : Outcome :=
  let poolName := plan.Name.ValueString
  if changed then
    match GetPool env w poolName with
    | (.error err, w1) =>
      { diagnostics := AddError [] "Error Reading Updated Ceph Pool"
          ("Could not read updated pool " ++ poolName ++ ": " ++ err),
        state := none, removed := false, calls := calls ++ [(.getPool poolName, some err)], world := w1 }
    | (.ok poolData, w1) =>
      { diagnostics := [], state := some (applyPoolData plan poolData), removed := false,
        calls := calls ++ [(.getPool poolName, none)], world := w1 }
  else
    { diagnostics := [], state := some plan, removed := false, calls := calls, world := w }

/-- The application step of `Update` (lines 313-326), then the refresh. -/
def updateApplication (env : Env) (w : World) (plan state : PoolResourceModel) (changed : Bool)
    (calls : List (ClientCall × Option String)) : Outcome :=
  let poolName := plan.Name.ValueString
  if applicationChanged plan.Application state.Application then
    let application := plan.Application.ValueString
    match env.SetApplication w poolName application with
    | (some err, w1) =>
      { diagnostics := AddError [] "Error Updating Pool Application"
          ("Could not update application for pool " ++ poolName ++ ": " ++ err),
        state := none, removed := false,
        calls := calls ++ [(.setApplication poolName application, some err)], world := w1 }
    | (none, w1) =>
      updateRefresh env w1 plan true (calls ++ [(.setApplication poolName application, none)])
  else updateRefresh env w plan changed calls

/-- The size step of `Update` (lines 299-311), then the rest. -/
def updateSize (env : Env) (w : World) (plan state : PoolResourceModel) (changed : Bool)
    (calls : List (ClientCall × Option String)) : Outcome :=
  let poolName := plan.Name.ValueString
  if numberChanged plan.Size state.Size then
    let size := plan.Size.ValueInt64
    match env.SetPoolProperty w poolName "size" size with
    | (some err, w1) =>
      { diagnostics := AddError [] "Error Updating Pool Size"
          ("Could not update size for pool " ++ poolName ++ ": " ++ err),
        state := none, removed := false,
        calls := calls ++ [(.setPoolProperty poolName "size" size, some err)], world := w1 }
    | (none, w1) =>
      updateApplication env w1 plan state true (calls ++ [(.setPoolProperty poolName "size" size, none)])
  else updateApplication env w plan state changed calls

/-- The pgp_num step of `Update` (lines 285-297), then the rest. -/
def updatePgpNum (env : Env) (w : World) (plan state : PoolResourceModel) (changed : Bool)
    (calls : List (ClientCall × Option String)) : Outcome :=
  let poolName := plan.Name.ValueString
  if numberChanged plan.PgpNum state.PgpNum then
    let pgpNum := plan.PgpNum.ValueInt64
    match env.SetPoolProperty w poolName "pgp_num" pgpNum with
    | (some err, w1) =>
      { diagnostics := AddError [] "Error Updating Pool PGP Num"
          ("Could not update pgp_num for pool " ++ poolName ++ ": " ++ err),
        state := none, removed := false,
        calls := calls ++ [(.setPoolProperty poolName "pgp_num" pgpNum, some err)], world := w1 }
    | (none, w1) =>
      updateSize env w1 plan state true (calls ++ [(.setPoolProperty poolName "pgp_num" pgpNum, none)])
  else updateSize env w plan state changed calls

/-- Embedding of `poolResource.Update`, from the plan and the prior state
already read out of the request: the pg_num step (lines 271-283), then the rest. -/
def Update (env : Env) (w : World) (plan state : PoolResourceModel) : Outcome :=
  let poolName := plan.Name.ValueString
  if numberChanged plan.PgNum state.PgNum then
    let pgNum := plan.PgNum.ValueInt64
    match env.SetPoolProperty w poolName "pg_num" pgNum with
    | (some err, w1) =>
      { diagnostics := AddError [] "Error Updating Pool PG Num"
          ("Could not update pg_num for pool " ++ poolName ++ ": " ++ err),
        state := none, removed := false,
        calls := [(.setPoolProperty poolName "pg_num" pgNum, some err)], world := w1 }
    | (none, w1) =>
      updatePgpNum env w1 plan state true [(.setPoolProperty poolName "pg_num" pgNum, none)]
  else updatePgpNum env w plan state false []

/-- Embedding of `poolResource.Delete`, from the prior state already read out of the request. -/
def Delete (env : Env) (w : World) (state : PoolResourceModel) : Outcome :=
  let poolName := state.Name.ValueString
  match DeletePool env w poolName with
  | (some err, w1) =>
    { diagnostics := AddError [] "Error Deleting Ceph Pool"
        ("Could not delete pool " ++ poolName ++ ": " ++ err),
      state := none, removed := false, calls := [(.deletePool poolName, some err)], world := w1 }
  | (none, w1) =>
    { diagnostics := [], state := none, removed := false, calls := [(.deletePool poolName, none)], world := w1 }

/-! ## The desired state as the specification words it -/

/-- Desired state (PoolSpec): a name, and five optional fields. -/
structure PoolSpec where
  name : String
  pool_type : Option String
  pg_num : Option Int
  pgp_num : Option Int
  size : Option Int
  application : Option String
  deriving DecidableEq, Repr

/-- An optional string as an attribute: absent is null. -/
def TfString.ofOption : Option String → TfString
  | none => .null
  | some s => .value s

/-- An optional integer as an attribute: absent is null. -/
def TfInt64.ofOption : Option Int → TfInt64
  | none => .null
  | some n => .value n

/-- The plan the host hands to the controller for a desired state; `id` is
whatever the host holds for the computed identifier. -/
def PoolSpec.toPlan (s : PoolSpec) (id : TfString) : PoolResourceModel :=
  { ID := id, Name := .value s.name, PoolType := .ofOption s.pool_type, PgNum := .ofOption s.pg_num,
    PgpNum := .ofOption s.pgp_num, Size := .ofOption s.size, Application := .ofOption s.application }

/-- Default resolution as the specification documents it: pool type defaults to
replicated, pg_num to 32, pgp_num to the resolved pg_num, size to 3, and the
application tag to empty. -/
def resolveDefaults (s : PoolSpec) : PoolCreateRequest :=
  { Pool := s.name
    PoolType := s.pool_type.getD "replicated"
    PgNum := s.pg_num.getD 32
    PgpNum := s.pgp_num.getD (s.pg_num.getD 32)
    Size := s.size.getD 3
    Application := s.application.getD "" }

/-- The observed record the specification expects of `Create`: the resolved
values, the identifier equal to the name, the application as it was given. -/
def observedOf (s : PoolSpec) : PoolResourceModel :=
  { ID := .value s.name
    Name := .value s.name
    PoolType := .value (resolveDefaults s).PoolType
    PgNum := .value (resolveDefaults s).PgNum
    PgpNum := .value (resolveDefaults s).PgpNum
    Size := .value (resolveDefaults s).Size
    Application := .ofOption s.application }

/-- A spec with only its name set. -/
def PoolSpec.named (name : String) : PoolSpec :=
  { name := name, pool_type := none, pg_num := none, pgp_num := none, size := none, application := none }

/-! ## Concrete surroundings used to run the embedding -/

/-- A session that already holds a token. -/
def sessionWithToken : World :=
  { client := { Endpoint := "https://ceph", Username := "admin", Password := "pw", Token := "tok" },
    sent := [] }

/-- Surroundings in which every request is answered with the given status and
body, every URL is well formed, and both property methods succeed. -/
def envAnswering (status : Nat) (body : String) : Env :=
  { newRequestError := fun _ _ => none
    roundTrip := fun _ _ => .response status body
    decodeAuthResponse := fun _ => .ok "fresh"
    decodePool := fun _ => .ok []
    SetPoolProperty := fun w _ _ _ => (none, w)
    SetApplication := fun w _ _ => (none, w) }

/-- The surroundings `envAnswering 201`, except that setting the application
fails with the given error. -/
def envApplicationFails (err : String) : Env :=
  { envAnswering 201 "" with SetApplication := fun w _ _ => (some err, w) }

/-- A text contains a piece when it is some text, the piece, some text. -/
def containsText (text piece : String) : Prop :=
  ∃ before after : String, text = before ++ piece ++ after

/-- The HTTP request `CreatePool` builds for a pool request, given the client. -/
def createPoolHttpRequest (c : CephClient) (poolReq : PoolCreateRequest) : HttpRequest :=
  { method := "POST", url := c.Endpoint ++ "/api/pool",
    headers := [("Content-Type", "application/json"), ("Authorization", "Bearer " ++ c.Token)],
    body := renderObject (poolCreateFields poolReq) }

/-- The HTTP request `GetPool` builds for a pool name, given the client. -/
def getPoolHttpRequest (c : CephClient) (poolName : String) : HttpRequest :=
  { method := "GET", url := c.Endpoint ++ "/api/pool/" ++ poolName,
    headers := [("Authorization", "Bearer " ++ c.Token)], body := "" }

/-- The HTTP request `DeletePool` builds for a pool name, given the client. -/
def deletePoolHttpRequest (c : CephClient) (poolName : String) : HttpRequest :=
  { method := "DELETE", url := c.Endpoint ++ "/api/pool/" ++ poolName,
    headers := [("Authorization", "Bearer " ++ c.Token)], body := "" }

/-- A tracked pool as `Create` leaves it for the spec with only its name set. -/
def trackedPool (name : String) : PoolResourceModel :=
  { ID := .value name, Name := .value name, PoolType := .value "replicated", PgNum := .value 32,
    PgpNum := .value 32, Size := .value 3, Application := .null }

/-- The mutation calls the selective diff plans for a desired and a prior
record, in order: one `setPoolProperty` for each of pg_num, pgp_num and size
that is set and differs, then one `setApplication` when the application is set
and differs from the prior one or the prior one is unset. -/
def mutationCalls (plan state : PoolResourceModel) : List ClientCall :=
  (if numberChanged plan.PgNum state.PgNum
    then [.setPoolProperty plan.Name.ValueString "pg_num" plan.PgNum.ValueInt64] else [])
  ++ (if numberChanged plan.PgpNum state.PgpNum
    then [.setPoolProperty plan.Name.ValueString "pgp_num" plan.PgpNum.ValueInt64] else [])
  ++ (if numberChanged plan.Size state.Size
    then [.setPoolProperty plan.Name.ValueString "size" plan.Size.ValueInt64] else [])
  ++ (if applicationChanged plan.Application state.Application
    then [.setApplication plan.Name.ValueString plan.Application.ValueString] else [])

/-- Whether the selective diff finds any field changed. -/
def anyChanged (plan state : PoolResourceModel) : Bool :=
  numberChanged plan.PgNum state.PgNum || numberChanged plan.PgpNum state.PgpNum
    || numberChanged plan.Size state.Size || applicationChanged plan.Application state.Application

/-- The refresh read that follows the mutation calls when something changed. -/
def refreshCalls (plan : PoolResourceModel) (changed : Bool) : List ClientCall :=
  if changed then [.getPool plan.Name.ValueString] else []

/-- Whether a client call is a property call (`setPoolProperty` or `setApplication`). -/
def ClientCall.isPropertyCall : ClientCall → Bool
  | .setPoolProperty _ _ _ => true
  | .setApplication _ _ => true
  | _ => false

/-- An outcome follows a plan of calls `rest` from the calls `before` already
made: the calls it adds either all succeed, are exactly `rest`, and the
operation ends with no diagnostic and a saved state; or they are successful
calls and then one failing call, together a beginning of `rest`, and the
operation ends with one error diagnostic whose detail ends in the error of
the failing call, and with no saved state. -/
def FollowsPlan (o : Outcome) (before : List (ClientCall × Option String))
    (rest : List ClientCall) : Prop :=
  ∃ done, o.calls = before ++ done ∧
    (((∀ x ∈ done, x.2 = none) ∧ done.map Prod.fst = rest ∧ o.diagnostics = []
        ∧ o.state.isSome = true)
     ∨ (∃ init c err summary text, done = init ++ [(c, some err)] ∧ (∀ x ∈ init, x.2 = none)
        ∧ (init.map Prod.fst ++ [c]) <+: rest
        ∧ o.diagnostics = [{ severity := .error, summary := summary, detail := text ++ err }]
        ∧ o.state = none))

/-- Surroundings in which every HTTP exchange is answered 200 with an empty
pool payload and `SetApplication` succeeds, while `SetPoolProperty` fails with
`err` on the given property and succeeds on every other. -/
def envPropertyFails (property err : String) : Env :=
  { envAnswering 200 "" with
    SetPoolProperty := fun w _ p _ => if p = property then (some err, w) else (none, w) }

/-- Whether a finite `float64` holds exactly the integer `n`. -/
def Float64.isInt (f : Float64) (n : Int) : Bool :=
  if 0 ≤ f.exp then decide (f.mant * 2 ^ f.exp.toNat = n)
  else decide (f.mant = n * 2 ^ (-f.exp).toNat)

/-- Surroundings in which every exchange is answered 200 and the pool payload
decodes to the given map. -/
def envPool (payload : PoolData) : Env :=
  { envAnswering 200 "" with decodePool := fun _ => .ok payload }

/-- The decoding contract of the string field `type`: a payload string is
taken over, anything else (no key, or a value of another JSON type) leaves
the prior value. -/
def DecodesString (entry : Option JsonValue) (prior result : TfString) : Prop :=
  (∀ s, entry = some (.string s) → result = .value s)
  ∧ ((∀ s, entry ≠ some (.string s)) → result = prior)

/-- The decoding contract of a numeric field: a payload number is taken over
converted to `int64` (so as the number itself when it holds an integer of the
int64 range), anything else leaves the prior value. -/
def DecodesNumber (entry : Option JsonValue) (prior result : TfInt64) : Prop :=
  (∀ f, entry = some (.number f) →
      result = .value f.toInt64
      ∧ ∀ n : Int, f.isInt n = true → -(2 ^ 63) ≤ n → n < 2 ^ 63 → result = .value n)
  ∧ ((∀ f, entry ≠ some (.number f)) → result = prior)

/-- The decoding contract of the application: a non-empty
`application_metadata` map gives the first key its iteration yields, an empty
map leaves the prior value, and so does anything else. -/
def DecodesApplication (entry : Option JsonValue) (prior result : TfString) : Prop :=
  (∀ app v others, entry = some (.object ((app, v) :: others)) → result = .value app)
  ∧ (entry = some (.object []) → result = prior)
  ∧ ((∀ kvs, entry ≠ some (.object kvs)) → result = prior)

/-- Embedding of `PoolDataSourceModel` (models.go). -/
structure PoolDataSourceModel where
  ID : TfString
  Name : TfString
  PoolType : TfString
  PgNum : TfInt64
  Size : TfInt64
  Application : TfString
  deriving DecidableEq, Repr

/-- What the data source's `Read` leaves behind: its diagnostics, the model it
handed to `resp.State.Set` (`none` when `Set` was not reached), the client
calls it made, and the world after it. -/
structure DataSourceOutcome where
  diagnostics : List Diagnostic
  state : Option PoolDataSourceModel
  calls : List (ClientCall × Option String)
  world : World

/-- The mapping of the payload onto the data source's model
(data_source_pool.go, lines 105-130): id and name are the pool name, and each
type assertion that succeeds overwrites its field. -/
def applyPoolDataSource (poolName : String) (m : PoolDataSourceModel) (poolData : PoolData) :
    PoolDataSourceModel :=
  let m0 := { m with ID := .value poolName, Name := .value poolName }
  let m1 := match poolData.lookup "type" with
    | some (.string poolType) => { m0 with PoolType := .value poolType }
    | _ => m0
  let m2 := match poolData.lookup "pg_num" with
    | some (.number pgNum) => { m1 with PgNum := .value pgNum.toInt64 }
    | _ => m1
  let m3 := match poolData.lookup "size" with
    | some (.number size) => { m2 with Size := .value size.toInt64 }
    | _ => m2
  match poolData.lookup "application_metadata" with
  | some (.object ((app, _) :: _)) => { m3 with Application := .value app }
  | _ => m3

/-- Embedding of `poolDataSource.Read`, from the configuration already read out
of the request. -/
def poolDataSource.Read (env : Env) (w : World) (state : PoolDataSourceModel) : DataSourceOutcome :=
  let poolName := state.Name.ValueString
  match GetPool env w poolName with
  | (.error err, w1) =>
    { diagnostics := AddError [] "Unable to Read Ceph Pool"
        ("Could not read pool " ++ poolName ++ ": " ++ err),
      state := none, calls := [(.getPool poolName, some err)], world := w1 }
  | (.ok poolData, w1) =>
    { diagnostics := [], state := some (applyPoolDataSource poolName state poolData),
      calls := [(.getPool poolName, none)], world := w1 }

/-- The first key the iteration over a decoded map yields, if the map has one. -/
def firstKey (kvs : List (String × JsonValue)) : Option String :=
  kvs.head?.map Prod.fst

/-- The application after a read, as the first key rule gives it: the first
key of the map when there is one, else the value held before the read. -/
def applicationAfter (entry : Option JsonValue) (before : TfString) : TfString :=
  match entry with
  | some (.object kvs) =>
    match firstKey kvs with
    | some app => .value app
    | none => before
  | _ => before

/-- A data source configuration: only the name is given, every computed
attribute is null. -/
def dataSourceConfig (name : String) : PoolDataSourceModel :=
  { ID := .null, Name := .value name, PoolType := .null, PgNum := .null, Size := .null,
    Application := .null }

/-- The first key rule for the application tag: over a non-empty
`application_metadata` map the result is the first key the iteration yields,
which is one of the map's keys and is the only key when the map has exactly
one; over an empty map, or with the key absent, the result is the value held
before the read. -/
def FollowsFirstKey (entry : Option JsonValue) (before result : TfString) : Prop :=
  (∀ kvs, entry = some (.object kvs) → kvs ≠ [] →
      ∃ app, result = .value app ∧ firstKey kvs = some app ∧ app ∈ kvs.map Prod.fst
        ∧ (∀ k, kvs.map Prod.fst = [k] → app = k))
  ∧ (entry = some (.object []) → result = before)
  ∧ (entry = none → result = before)

/-- The HTTP request `Authenticate` builds, given the client. -/
def authHttpRequest (c : CephClient) : HttpRequest :=
  { method := "POST", url := c.Endpoint ++ "/api/auth",
    headers := [("Content-Type", "application/json")],
    body := renderObject [("username", .str c.Username), ("password", .str c.Password)] }

/-- Whether a request goes to the authentication path of the endpoint. -/
def isAuthRequest (endpoint : String) (r : HttpRequest) : Bool :=
  r.url == endpoint ++ "/api/auth"

/-- The error of a call that returns a value and an error. -/
def errorOf {α : Type} : Except String α → Option String
  | .error err => some err
  | .ok _ => none

/-- A session that holds no token yet. -/
def sessionNoToken : World :=
  { client := { Endpoint := "https://ceph", Username := "admin", Password := "pw", Token := "" },
    sent := [] }

/-- Lazy authentication of a client call that returned `err` and left the
world `after`, its substantive request being `request`.  On an empty token:
when `Authenticate` fails the call returns that error unchanged and leaves the
world as `Authenticate` left it, with at most the one authentication request
sent and no substantive one; when `Authenticate` succeeds, exactly one
authentication request was sent, and the substantive request, if sent, comes
after it.  On a non-empty token the only request that can be sent is the
substantive one.  A substantive request never goes to the authentication path. -/
def LazyAuthContract (env : Env) (w : World) (err : Option String) (after : World)
    (request : CephClient → HttpRequest) : Prop :=
  (w.client.Token = "" →
    (∀ e w0, Authenticate env w = (some e, w0) →
        err = some e ∧ after = w0
        ∧ (after.sent = w.sent ∨ after.sent = w.sent ++ [authHttpRequest w.client]))
    ∧ (∀ w0, Authenticate env w = (none, w0) →
        w0.client.Endpoint = w.client.Endpoint
        ∧ (after.sent = w.sent ++ [authHttpRequest w.client]
          ∨ after.sent = w.sent ++ [authHttpRequest w.client, request w0.client])))
  ∧ (w.client.Token ≠ "" → after.sent = w.sent ∨ after.sent = w.sent ++ [request w.client])
  ∧ (∀ c : CephClient, isAuthRequest c.Endpoint (request c) = false)
  ∧ isAuthRequest w.client.Endpoint (authHttpRequest w.client) = true

/-- Whether `GetPool` gets as far as its GET and the server answers it 404:
the lazy authentication passes, the request is built, and the answer to it has
status 404. -/
def answeredNotFound (env : Env) (w : World) (poolName : String) : Bool :=
  match ensureToken env w with
  | (some _, _) => false
  | (none, w0) =>
    match env.newRequestError "GET" (w0.client.Endpoint ++ "/api/pool/" ++ poolName) with
    | some _ => false
    | none =>
      match env.roundTrip w0.sent (getPoolHttpRequest w0.client poolName) with
      | .transportError _ => false
      | .response status _ => status == 404

/-- A plan for a pool in which every optional attribute is unknown, as at
creation time when the configuration sets none of them. -/
def planAllUnknown (name : String) : PoolResourceModel :=
  { ID := .unknown, Name := .value name, PoolType := .unknown, PgNum := .unknown,
    PgpNum := .unknown, Size := .unknown, Application := .unknown }

/-- How the request body and the saved record treat one resolved number: the
record reports the number as it is; the body has no entry for it when it is
zero and carries the same number when it is not. -/
def BodyOmitsZero (entry : Option JsonField) (resolved : Int) (record : TfInt64) : Prop :=
  record = .value resolved
  ∧ (resolved = 0 → entry = none)
  ∧ (resolved ≠ 0 → entry = some (.num resolved))

/-! # Properties -/

/-! ## Create -/

theorem createRequest_toPlan (s : PoolSpec) (id : TfString) :
    createRequest (s.toPlan id) = resolveDefaults s := by
  rcases s with ⟨name, pt, pg, pgp, sz, app⟩
  cases pt <;> cases pg <;> cases pgp <;> cases sz <;> cases app <;> rfl

theorem createdState_toPlan (s : PoolSpec) (id : TfString) :
    createdState (s.toPlan id) (resolveDefaults s) = observedOf s := by
  rcases s with ⟨name, pt, pg, pgp, sz, app⟩
  cases app with
  | none => simp [createdState, PoolSpec.toPlan, resolveDefaults, observedOf, TfString.ofOption]
  | some a =>
    by_cases h : a = ""
    · simp [createdState, PoolSpec.toPlan, resolveDefaults, observedOf, TfString.ofOption, h]
    · simp [createdState, PoolSpec.toPlan, resolveDefaults, observedOf, TfString.ofOption, h]

/-- The first client call of `Create` is `createPool` with the request built from the plan. -/
theorem Create_calls_head (env : Env) (w : World) (plan : PoolResourceModel) :
    ((Create env w plan).calls.map Prod.fst).head? = some (.createPool (createRequest plan)) := by
  unfold Create
  simp only []
  split
  · rfl
  · split
    · split <;> rfl
    · rfl

/-- The model `Create` saves, when it saves one, is `createdState` of the plan. -/
theorem Create_state (env : Env) (w : World) (plan : PoolResourceModel) :
    (Create env w plan).state =
      if (CreatePool env w (createRequest plan)).1 = none
      then some (createdState plan (createRequest plan)) else none := by
  unfold Create
  simp only []
  split
  · next err w1 h => simp [h]
  · next w1 h =>
    simp only [h, if_true]
    split
    · split <;> rfl
    · rfl

/-- C1: for every desired spec, the request `Create` builds equals the
documented default resolution (a set field kept, an absent one resolved to
replicated / 32 / the resolved pg_num / 3 / empty application); that request
is what `Create` passes to createPool as its first client call; the observed
record `Create` saves is the resolved record with id = name, saved exactly when
createPool succeeds; an explicit pg_num = n with pgp_num absent gives
pgp_num = n; a spec with only its name set resolves to (replicated, 32, 32, 3,
application unset). -/
theorem create_resolves_documented_defaults (env : Env) (w : World) (s : PoolSpec) (id : TfString) :
    createRequest (s.toPlan id) = resolveDefaults s
    ∧ ((Create env w (s.toPlan id)).calls.map Prod.fst).head? = some (.createPool (resolveDefaults s))
    ∧ (Create env w (s.toPlan id)).state =
        (if (CreatePool env w (resolveDefaults s)).1 = none then some (observedOf s) else none)
    ∧ (∀ n : Int,
        (createRequest (PoolSpec.toPlan { s with pg_num := some n, pgp_num := none } id)).PgNum = n
        ∧ (createRequest (PoolSpec.toPlan { s with pg_num := some n, pgp_num := none } id)).PgpNum = n)
    ∧ createRequest ((PoolSpec.named s.name).toPlan id) =
        { Pool := s.name, PoolType := "replicated", PgNum := 32, PgpNum := 32, Size := 3,
          Application := "" }
    ∧ observedOf (PoolSpec.named s.name) =
        { ID := .value s.name, Name := .value s.name, PoolType := .value "replicated",
          PgNum := .value 32, PgpNum := .value 32, Size := .value 3, Application := .null } := by
  have hs := Create_state env w (s.toPlan id)
  rw [createRequest_toPlan, createdState_toPlan] at hs
  refine ⟨createRequest_toPlan s id, ?_, hs, ?_, rfl, rfl⟩
  · rw [Create_calls_head, createRequest_toPlan]
  · intro n
    rw [createRequest_toPlan]
    exact ⟨rfl, rfl⟩

/-- A run of `Create` on the spec (name = pool-a, pg_num = 64) against a server
answering 201: no diagnostics, one client call, pg_num = pgp_num = 64 saved. -/
theorem Create_run_pg64 :
    (Create (envAnswering 201 "") sessionWithToken
        (PoolSpec.toPlan { PoolSpec.named "pool-a" with pg_num := some 64 } .unknown)).state
      = some { ID := .value "pool-a", Name := .value "pool-a", PoolType := .value "replicated",
               PgNum := .value 64, PgpNum := .value 64, Size := .value 3, Application := .null } := by
  decide

/-- When lazy authentication passes and the request is built, `CreatePool`
sends `createPoolHttpRequest` and succeeds exactly on 201 or 200. -/
theorem CreatePool_sends (env : Env) (w w0 : World) (poolReq : PoolCreateRequest)
    (hauth : ensureToken env w = (none, w0))
    (hurl : env.newRequestError "POST" (w0.client.Endpoint ++ "/api/pool") = none) :
    (CreatePool env w poolReq).2.sent = w0.sent ++ [createPoolHttpRequest w0.client poolReq]
    ∧ (CreatePool env w poolReq).2.client = w0.client
    ∧ (∀ body, env.roundTrip w0.sent (createPoolHttpRequest w0.client poolReq) = .response 201 body →
        (CreatePool env w poolReq).1 = none)
    ∧ (∀ body, env.roundTrip w0.sent (createPoolHttpRequest w0.client poolReq) = .response 200 body →
        (CreatePool env w poolReq).1 = none) := by
  unfold CreatePool
  simp only [hauth, hurl, createPoolHttpRequest]
  refine ⟨?_, ?_, ?_, ?_⟩
  · cases env.roundTrip w0.sent _ with
    | transportError err => rfl
    | response status respBody => dsimp only; split <;> rfl
  · cases env.roundTrip w0.sent _ with
    | transportError err => rfl
    | response status respBody => dsimp only; split <;> rfl
  · intro body hb
    simp [hb]
  · intro body hb
    simp [hb]

/-- When the resolved application is empty, `Create` makes the one call
createPool and leaves the world as `CreatePool` left it. -/
theorem Create_no_application (env : Env) (w : World) (plan : PoolResourceModel)
    (happ : (createRequest plan).Application = "") :
    (Create env w plan).world = (CreatePool env w (createRequest plan)).2
    ∧ (Create env w plan).calls =
        [(.createPool (createRequest plan), (CreatePool env w (createRequest plan)).1)]
    ∧ ((CreatePool env w (createRequest plan)).1 = none → (Create env w plan).diagnostics = []) := by
  unfold Create
  simp only []
  split
  · next err w1 h => simp [h]
  · next w1 h => simp [h, happ]

/-- C2: for every desired spec whose application is absent or empty and whose
resolved pg_num, pgp_num and size are non-zero, the JSON object `Create` has
the client send is made of exactly the keys pool, pool_type, pg_num, pgp_num,
size, in that order, with the resolved values and no application key; once the
session holds a token (lazy authentication passed) and the request is built,
the one request `Create` sends is the POST to /api/pool with that body; when
the server answers it 201, `Create` records no diagnostic and saves the
resolved observed record; and for the spec with only name = pool-a the body is
the literal of the scenario. -/
theorem create_request_body (env : Env) (w w0 : World) (s : PoolSpec) (id : TfString)
    (happ : s.application = none ∨ s.application = some "")
    (hpg : (resolveDefaults s).PgNum ≠ 0) (hpgp : (resolveDefaults s).PgpNum ≠ 0)
    (hsize : (resolveDefaults s).Size ≠ 0)
    (hauth : ensureToken env w = (none, w0))
    (hurl : env.newRequestError "POST" (w0.client.Endpoint ++ "/api/pool") = none) :
    poolCreateFields (createRequest (s.toPlan id)) =
        [("pool", .str s.name), ("pool_type", .str (resolveDefaults s).PoolType),
         ("pg_num", .num (resolveDefaults s).PgNum), ("pgp_num", .num (resolveDefaults s).PgpNum),
         ("size", .num (resolveDefaults s).Size)]
    ∧ (Create env w (s.toPlan id)).world.sent = w0.sent ++
        [{ method := "POST", url := w0.client.Endpoint ++ "/api/pool",
           headers := [("Content-Type", "application/json"),
                       ("Authorization", "Bearer " ++ w0.client.Token)],
           body := renderObject
             [("pool", .str s.name), ("pool_type", .str (resolveDefaults s).PoolType),
              ("pg_num", .num (resolveDefaults s).PgNum), ("pgp_num", .num (resolveDefaults s).PgpNum),
              ("size", .num (resolveDefaults s).Size)] }]
    ∧ (∀ body, env.roundTrip w0.sent (createPoolHttpRequest w0.client (resolveDefaults s))
          = .response 201 body →
        (Create env w (s.toPlan id)).diagnostics = []
        ∧ (Create env w (s.toPlan id)).state = some (observedOf s)
        ∧ (Create env w (s.toPlan id)).calls = [(.createPool (resolveDefaults s), none)])
    ∧ renderObject (poolCreateFields (createRequest ((PoolSpec.named "pool-a").toPlan id))) =
        "\x7b\"pool\":\"pool-a\",\"pool_type\":\"replicated\",\"pg_num\":32,\"pgp_num\":32,\"size\":3\x7d"
    ∧ observedOf (PoolSpec.named "pool-a") =
        { ID := .value "pool-a", Name := .value "pool-a", PoolType := .value "replicated",
          PgNum := .value 32, PgpNum := .value 32, Size := .value 3, Application := .null } := by
  have happ2 : (resolveDefaults s).Application = "" := by
    rcases happ with h | h <;> simp [resolveDefaults, h]
  have hfields : poolCreateFields (resolveDefaults s) =
      [("pool", .str s.name), ("pool_type", .str (resolveDefaults s).PoolType),
       ("pg_num", .num (resolveDefaults s).PgNum), ("pgp_num", .num (resolveDefaults s).PgpNum),
       ("size", .num (resolveDefaults s).Size)] := by
    simp [poolCreateFields, hpg, hpgp, hsize, happ2]
    rfl
  have hreq := createRequest_toPlan s id
  have hno := Create_no_application env w (s.toPlan id) (by rw [hreq]; exact happ2)
  have hsend := CreatePool_sends env w w0 (resolveDefaults s) hauth hurl
  rw [hreq] at hno
  refine ⟨by rw [hreq]; exact hfields, ?_, ?_, by rw [createRequest_toPlan]; decide, rfl⟩
  · rw [hno.1, hsend.1, createPoolHttpRequest, hfields]
  · intro body hb
    have hok := hsend.2.2.1 body hb
    have hst := Create_state env w (s.toPlan id)
    rw [hreq, createdState_toPlan, if_pos hok] at hst
    refine ⟨hno.2.2 hok, hst, ?_⟩
    rw [hno.2.1, hok]

/-- Witness for C2: the scenario Create(name = pool-a) on a session holding a
token, the server answering 201. -/
theorem create_request_body_witness :
    (Create (envAnswering 201 "") sessionWithToken ((PoolSpec.named "pool-a").toPlan .unknown)).world.sent =
        [{ method := "POST", url := "https://ceph/api/pool",
           headers := [("Content-Type", "application/json"), ("Authorization", "Bearer tok")],
           body := "\x7b\"pool\":\"pool-a\",\"pool_type\":\"replicated\",\"pg_num\":32,\"pgp_num\":32,\"size\":3\x7d" }]
    ∧ (Create (envAnswering 201 "") sessionWithToken ((PoolSpec.named "pool-a").toPlan .unknown)).diagnostics = []
    ∧ (Create (envAnswering 201 "") sessionWithToken ((PoolSpec.named "pool-a").toPlan .unknown)).state =
        some { ID := .value "pool-a", Name := .value "pool-a", PoolType := .value "replicated",
               PgNum := .value 32, PgpNum := .value 32, Size := .value 3, Application := .null } :=
  have h := create_request_body (envAnswering 201 "") sessionWithToken sessionWithToken
    (PoolSpec.named "pool-a") .unknown (Or.inl rfl) (by decide) (by decide) (by decide) rfl rfl
  ⟨h.2.1, (h.2.2.1 "" rfl).1, (h.2.2.1 "" rfl).2.1⟩

/-- C3: for every desired spec with a non-empty application tag, when
createPool succeeds and the setApplication call that follows fails, `Create`
records no error and exactly one warning, whose text contains the requested
application name (and the error of the call); it makes the two client calls
and saves the resolved observed record, the same record it saves under any
other behaviour of setApplication, a successful one included. -/
theorem create_application_failure_is_warning (env : Env) (w w1 w2 : World) (s : PoolSpec)
    (id : TfString) (app err : String)
    (happ : s.application = some app) (hne : app ≠ "")
    (hcreate : CreatePool env w (resolveDefaults s) = (none, w1))
    (hset : env.SetApplication w1 s.name app = (some err, w2)) :
    errorsOf (Create env w (s.toPlan id)).diagnostics = []
    ∧ HasError (Create env w (s.toPlan id)).diagnostics = false
    ∧ (Create env w (s.toPlan id)).diagnostics =
        [{ severity := .warning, summary := "Error Setting Pool Application",
           detail := "Pool created but could not set application " ++ app ++ ": " ++ err }]
    ∧ (∀ d ∈ warningsOf (Create env w (s.toPlan id)).diagnostics, containsText d.detail app)
    ∧ (warningsOf (Create env w (s.toPlan id)).diagnostics).length = 1
    ∧ (Create env w (s.toPlan id)).calls =
        [(.createPool (resolveDefaults s), none), (.setApplication s.name app, some err)]
    ∧ (Create env w (s.toPlan id)).state = some (observedOf s)
    ∧ (∀ f : World → String → String → Option String × World,
        (Create { env with SetApplication := f } w (s.toPlan id)).state
          = (Create env w (s.toPlan id)).state) := by
  have hreq := createRequest_toPlan s id
  have happ2 : (resolveDefaults s).Application = app := by simp [resolveDefaults, happ]
  have hname : (resolveDefaults s).Pool = s.name := rfl
  have hdiag : (Create env w (s.toPlan id)).diagnostics =
      [{ severity := .warning, summary := "Error Setting Pool Application",
         detail := "Pool created but could not set application " ++ app ++ ": " ++ err }]
      ∧ (Create env w (s.toPlan id)).calls =
        [(.createPool (resolveDefaults s), none), (.setApplication s.name app, some err)] := by
    unfold Create
    simp only [hreq, hcreate, happ2, hname, hne, ne_eq, not_false_eq_true, if_true, hset]
    exact ⟨rfl, trivial⟩
  have hstate : ∀ e : Env, CreatePool e w (resolveDefaults s) = (none, w1) →
      (Create e w (s.toPlan id)).state = some (observedOf s) := by
    intro e he
    have h := Create_state e w (s.toPlan id)
    rw [hreq, createdState_toPlan, he] at h
    simpa using h
  refine ⟨?_, ?_, hdiag.1, ?_, ?_, hdiag.2, hstate env hcreate, ?_⟩
  · rw [hdiag.1]; rfl
  · rw [hdiag.1]; rfl
  · intro d hd
    rw [hdiag.1] at hd
    simp only [warningsOf, List.filter_cons, decide_True, if_true, List.filter_nil,
      List.mem_singleton] at hd
    subst hd
    exact ⟨"Pool created but could not set application ", ": " ++ err, by simp [String.append_assoc]⟩
  · rw [hdiag.1]; rfl
  · intro f
    rw [hstate env hcreate]
    exact hstate _ hcreate

/-- Witness for C3: the scenario Create(name = pool-b, application = rbd), the
pool created with 201 and the application call failing with a 500. -/
theorem create_application_failure_is_warning_witness :
    (Create (envApplicationFails "status 500") sessionWithToken
        (PoolSpec.toPlan { PoolSpec.named "pool-b" with application := some "rbd" } .unknown)).diagnostics =
        [{ severity := .warning, summary := "Error Setting Pool Application",
           detail := "Pool created but could not set application rbd: status 500" }]
    ∧ (Create (envApplicationFails "status 500") sessionWithToken
        (PoolSpec.toPlan { PoolSpec.named "pool-b" with application := some "rbd" } .unknown)).state =
        some { ID := .value "pool-b", Name := .value "pool-b", PoolType := .value "replicated",
               PgNum := .value 32, PgpNum := .value 32, Size := .value 3, Application := .value "rbd" } :=
  have h := create_application_failure_is_warning (envApplicationFails "status 500") sessionWithToken
    (sessionWithToken.send (createPoolHttpRequest sessionWithToken.client
      (resolveDefaults { PoolSpec.named "pool-b" with application := some "rbd" })))
    (sessionWithToken.send (createPoolHttpRequest sessionWithToken.client
      (resolveDefaults { PoolSpec.named "pool-b" with application := some "rbd" })))
    { PoolSpec.named "pool-b" with application := some "rbd" } .unknown "rbd" "status 500"
    rfl (by decide) (by decide) rfl
  ⟨h.2.2.1, h.2.2.2.2.2.2.1⟩

/-! ## Read and Delete against a 404 -/

/-- A session holding a token needs no authentication. -/
theorem ensureToken_of_token (env : Env) (w : World) (h : w.client.Token ≠ "") :
    ensureToken env w = (none, w) := by
  simp [ensureToken, h]

/-- `GetPool` on a 404 answer returns the error with the text `pool not found`. -/
theorem GetPool_not_found (env : Env) (w : World) (poolName body : String)
    (htok : w.client.Token ≠ "")
    (hurl : env.newRequestError "GET" (w.client.Endpoint ++ "/api/pool/" ++ poolName) = none)
    (h404 : env.roundTrip w.sent (getPoolHttpRequest w.client poolName) = .response 404 body) :
    GetPool env w poolName = (.error "pool not found", w.send (getPoolHttpRequest w.client poolName)) := by
  unfold GetPool
  simp only [ensureToken_of_token env w htok, hurl]
  simp only [getPoolHttpRequest] at h404
  simp [h404, getPoolHttpRequest]

/-- `DeletePool` on a 404 answer returns an error carrying the status and the body. -/
theorem DeletePool_not_found (env : Env) (w : World) (poolName body : String)
    (htok : w.client.Token ≠ "")
    (hurl : env.newRequestError "DELETE" (w.client.Endpoint ++ "/api/pool/" ++ poolName) = none)
    (h404 : env.roundTrip w.sent (deletePoolHttpRequest w.client poolName) = .response 404 body) :
    DeletePool env w poolName =
      (some ("failed to delete pool with status 404: " ++ body),
       w.send (deletePoolHttpRequest w.client poolName)) := by
  unfold DeletePool
  simp only [ensureToken_of_token env w htok, hurl]
  simp only [deletePoolHttpRequest] at h404
  have h : renderStatus 404 = "404" := by decide
  simp [h404, deletePoolHttpRequest, h]

/-- C4: for every tracked state (so every pool name), when the session holds a
token and the server answers the GET for that pool with 404, `Read` calls
`RemoveResource`, saves no state, and records no diagnostic at all, so no
error; its one client call is the getPool that came back not found. -/
theorem read_not_found_removes_resource (env : Env) (w : World) (state : PoolResourceModel)
    (body : String)
    (htok : w.client.Token ≠ "")
    (hurl : env.newRequestError "GET"
      (w.client.Endpoint ++ "/api/pool/" ++ state.Name.ValueString) = none)
    (h404 : env.roundTrip w.sent (getPoolHttpRequest w.client state.Name.ValueString)
      = .response 404 body) :
    (Read env w state).removed = true
    ∧ (Read env w state).diagnostics = []
    ∧ HasError (Read env w state).diagnostics = false
    ∧ (Read env w state).state = none
    ∧ (Read env w state).calls = [(.getPool state.Name.ValueString, some "pool not found")]
    ∧ (Read env w state).world.sent = w.sent ++ [getPoolHttpRequest w.client state.Name.ValueString] := by
  have h := GetPool_not_found env w state.Name.ValueString body htok hurl h404
  simp [Read, h, HasError, World.send]

/-- Witness for C4: the scenario Read(missing-pool) with the server answering 404. -/
theorem read_not_found_removes_resource_witness :
    (Read (envAnswering 404 "") sessionWithToken (trackedPool "missing-pool")).removed = true
    ∧ (Read (envAnswering 404 "") sessionWithToken (trackedPool "missing-pool")).diagnostics = [] :=
  have h := read_not_found_removes_resource (envAnswering 404 "") sessionWithToken
    (trackedPool "missing-pool") "" (by decide) rfl rfl
  ⟨h.1, h.2.1⟩

/-- C7, as stated, fails: `Delete` of pool-a on a session holding a token, the
DELETE answered with 404, reports an error. -/
theorem delete_not_found_counterexample :
    (envAnswering 404 "").roundTrip sessionWithToken.sent
        (deletePoolHttpRequest sessionWithToken.client "pool-a") = .response 404 ""
    ∧ HasError (Delete (envAnswering 404 "") sessionWithToken (trackedPool "pool-a")).diagnostics = true
    ∧ (Delete (envAnswering 404 "") sessionWithToken (trackedPool "pool-a")).diagnostics =
        [{ severity := .error, summary := "Error Deleting Ceph Pool",
           detail := "Could not delete pool pool-a: failed to delete pool with status 404: " }] := by
  decide

/-- `DeletePool` on a session holding a token, the request built and answered:
it succeeds exactly on 204, 200 and 202 and otherwise returns the status and the body. -/
theorem DeletePool_answered (env : Env) (w : World) (poolName body : String) (status : Nat)
    (htok : w.client.Token ≠ "")
    (hurl : env.newRequestError "DELETE" (w.client.Endpoint ++ "/api/pool/" ++ poolName) = none)
    (hresp : env.roundTrip w.sent (deletePoolHttpRequest w.client poolName) = .response status body) :
    DeletePool env w poolName =
      (if status ≠ 204 ∧ status ≠ 200 ∧ status ≠ 202
        then some ("failed to delete pool with status " ++ renderStatus status ++ ": " ++ body)
        else none,
       w.send (deletePoolHttpRequest w.client poolName)) := by
  unfold DeletePool
  simp only [ensureToken_of_token env w htok, hurl]
  simp only [deletePoolHttpRequest] at hresp
  simp only [hresp, deletePoolHttpRequest]
  split <;> rfl

/-- C7, amended: for every tracked state (so every pool name), when the session
holds a token and the DELETE for that pool is answered, `Delete` reports no
error exactly when the status is 204, 200 or 202; answered with 404 it reports
exactly one diagnostic, an error that names the pool and carries the status
404 and the response body: the raw delete error is returned, and reading a
not-found as success is left to the caller. -/
theorem delete_not_found_reports_raw_error (env : Env) (w : World) (state : PoolResourceModel)
    (status : Nat) (body : String)
    (htok : w.client.Token ≠ "")
    (hurl : env.newRequestError "DELETE"
      (w.client.Endpoint ++ "/api/pool/" ++ state.Name.ValueString) = none)
    (hresp : env.roundTrip w.sent (deletePoolHttpRequest w.client state.Name.ValueString)
      = .response status body) :
    (HasError (Delete env w state).diagnostics = false
        ↔ (status = 204 ∨ status = 200 ∨ status = 202))
    ∧ (status = 404 →
        (Delete env w state).diagnostics =
          [{ severity := .error, summary := "Error Deleting Ceph Pool",
             detail := "Could not delete pool " ++ state.Name.ValueString
               ++ ": failed to delete pool with status 404: " ++ body }]
        ∧ HasError (Delete env w state).diagnostics = true
        ∧ (Delete env w state).calls =
            [(.deletePool state.Name.ValueString,
              some ("failed to delete pool with status 404: " ++ body))])
    ∧ (Delete env w state).world.sent =
        w.sent ++ [deletePoolHttpRequest w.client state.Name.ValueString] := by
  have h := DeletePool_answered env w state.Name.ValueString body status htok hurl hresp
  refine ⟨?_, ?_, ?_⟩
  · by_cases hs : status ≠ 204 ∧ status ≠ 200 ∧ status ≠ 202
    · rw [if_pos hs] at h
      have hno : ¬ (status = 204 ∨ status = 200 ∨ status = 202) := by
        rintro (h1 | h1 | h1) <;> simp [h1] at hs
      simp [Delete, h, HasError, AddError, hno]
    · rw [if_neg hs] at h
      have hyes : status = 204 ∨ status = 200 ∨ status = 202 := by
        by_contra hc
        exact hs ⟨fun h1 => hc (Or.inl h1), fun h1 => hc (Or.inr (Or.inl h1)),
          fun h1 => hc (Or.inr (Or.inr h1))⟩
      simp [Delete, h, HasError, hyes]
  · intro h404
    subst h404
    have h2 := DeletePool_not_found env w state.Name.ValueString body htok hurl hresp
    have hlit : ": " ++ "failed to delete pool with status 404: "
        = ": failed to delete pool with status 404: " := by decide
    simp [Delete, h2, HasError, AddError, String.append_assoc]
    rw [← String.append_assoc ": ", hlit]
  · by_cases hs : status ≠ 204 ∧ status ≠ 200 ∧ status ≠ 202
    · rw [if_pos hs] at h
      simp [Delete, h, World.send]
    · rw [if_neg hs] at h
      simp [Delete, h, World.send]

/-- Witness for the amended C7: pool-a, the DELETE answered 404 with a body. -/
theorem delete_not_found_reports_raw_error_witness :
    (Delete (envAnswering 404 "no such pool") sessionWithToken (trackedPool "pool-a")).diagnostics =
        [{ severity := .error, summary := "Error Deleting Ceph Pool",
           detail := "Could not delete pool " ++ (trackedPool "pool-a").Name.ValueString
             ++ ": failed to delete pool with status 404: " ++ "no such pool" }] :=
  ((delete_not_found_reports_raw_error (envAnswering 404 "no such pool") sessionWithToken
    (trackedPool "pool-a") 404 "no such pool" (by decide) rfl rfl).2.1 rfl).1

/-! ## Update -/

/-- A successful call already made can be counted as the first call of the plan. -/
theorem FollowsPlan.cons_ok {o : Outcome} {before : List (ClientCall × Option String)}
    {c : ClientCall} {rest : List ClientCall}
    (h : FollowsPlan o (before ++ [(c, none)]) rest) : FollowsPlan o before (c :: rest) := by
  obtain ⟨done, hcalls, hcase⟩ := h
  refine ⟨(c, none) :: done, by simpa using hcalls, ?_⟩
  rcases hcase with ⟨hall, hmap, hd, hs⟩ | ⟨init, c2, err, summary, text, hdone, hinit, hpre, hd, hs⟩
  · left
    refine ⟨?_, by simp [hmap], hd, hs⟩
    intro x hx
    rcases List.mem_cons.1 hx with rfl | hx
    · rfl
    · exact hall x hx
  · right
    refine ⟨(c, none) :: init, c2, err, summary, text, by simp [hdone], ?_, ?_, hd, hs⟩
    · intro x hx
      rcases List.mem_cons.1 hx with rfl | hx
      · rfl
      · exact hinit x hx
    · simpa using (List.prefix_cons_inj c).2 hpre

/-- A failing call that ends the operation with its error follows any plan that starts with it. -/
theorem FollowsPlan.fail {o : Outcome} {before : List (ClientCall × Option String)}
    {c : ClientCall} {err summary text : String} (rest : List ClientCall)
    (hcalls : o.calls = before ++ [(c, some err)])
    (hd : o.diagnostics = AddError [] summary (text ++ err))
    (hs : o.state = none) : FollowsPlan o before (c :: rest) := by
  refine ⟨[(c, some err)], hcalls, Or.inr ⟨[], c, err, summary, text, rfl, by simp, ?_, hd, hs⟩⟩
  simp [List.prefix_cons_inj, List.nil_prefix]

/-- The refresh step follows its plan. -/
theorem updateRefresh_follows (env : Env) (w : World) (plan : PoolResourceModel) (changed : Bool)
    (calls : List (ClientCall × Option String)) :
    FollowsPlan (updateRefresh env w plan changed calls) calls (refreshCalls plan changed) := by
  unfold updateRefresh refreshCalls
  cases changed with
  | false => exact ⟨[], by simp, Or.inl ⟨by simp, rfl, rfl, rfl⟩⟩
  | true =>
    simp only [if_true]
    cases h : GetPool env w plan.Name.ValueString with
    | mk r w1 =>
      cases r with
      | error err =>
        exact FollowsPlan.fail [] rfl rfl rfl
      | ok poolData =>
        exact ⟨[(.getPool plan.Name.ValueString, none)], rfl, Or.inl ⟨by simp, rfl, rfl, rfl⟩⟩

/-- The application step and what comes after it follow their plan. -/
theorem updateApplication_follows (env : Env) (w : World) (plan state : PoolResourceModel)
    (changed : Bool) (calls : List (ClientCall × Option String)) :
    FollowsPlan (updateApplication env w plan state changed calls) calls
      ((if applicationChanged plan.Application state.Application
          then [.setApplication plan.Name.ValueString plan.Application.ValueString] else [])
        ++ refreshCalls plan (changed || applicationChanged plan.Application state.Application)) := by
  unfold updateApplication
  cases hc : applicationChanged plan.Application state.Application with
  | false => simpa using updateRefresh_follows env w plan changed calls
  | true =>
    simp only [if_true, Bool.or_true, List.singleton_append]
    cases h : env.SetApplication w plan.Name.ValueString plan.Application.ValueString with
    | mk r w1 =>
      cases r with
      | some err => exact FollowsPlan.fail _ rfl rfl rfl
      | none => exact FollowsPlan.cons_ok (updateRefresh_follows env w1 plan true _)

/-- The size step and what comes after it follow their plan. -/
theorem updateSize_follows (env : Env) (w : World) (plan state : PoolResourceModel)
    (changed : Bool) (calls : List (ClientCall × Option String)) :
    FollowsPlan (updateSize env w plan state changed calls) calls
      ((if numberChanged plan.Size state.Size
          then [.setPoolProperty plan.Name.ValueString "size" plan.Size.ValueInt64] else [])
        ++ ((if applicationChanged plan.Application state.Application
          then [.setApplication plan.Name.ValueString plan.Application.ValueString] else [])
        ++ refreshCalls plan (changed || numberChanged plan.Size state.Size
            || applicationChanged plan.Application state.Application))) := by
  unfold updateSize
  cases hc : numberChanged plan.Size state.Size with
  | false => simpa using updateApplication_follows env w plan state changed calls
  | true =>
    simp only [if_true, Bool.or_true, List.singleton_append]
    cases h : env.SetPoolProperty w plan.Name.ValueString "size" plan.Size.ValueInt64 with
    | mk r w1 =>
      cases r with
      | some err => exact FollowsPlan.fail _ rfl rfl rfl
      | none =>
        exact FollowsPlan.cons_ok (by simpa using updateApplication_follows env w1 plan state true _)

/-- The pgp_num step and what comes after it follow their plan. -/
theorem updatePgpNum_follows (env : Env) (w : World) (plan state : PoolResourceModel)
    (changed : Bool) (calls : List (ClientCall × Option String)) :
    FollowsPlan (updatePgpNum env w plan state changed calls) calls
      ((if numberChanged plan.PgpNum state.PgpNum
          then [.setPoolProperty plan.Name.ValueString "pgp_num" plan.PgpNum.ValueInt64] else [])
        ++ ((if numberChanged plan.Size state.Size
          then [.setPoolProperty plan.Name.ValueString "size" plan.Size.ValueInt64] else [])
        ++ ((if applicationChanged plan.Application state.Application
          then [.setApplication plan.Name.ValueString plan.Application.ValueString] else [])
        ++ refreshCalls plan (changed || numberChanged plan.PgpNum state.PgpNum
            || numberChanged plan.Size state.Size
            || applicationChanged plan.Application state.Application)))) := by
  unfold updatePgpNum
  cases hc : numberChanged plan.PgpNum state.PgpNum with
  | false => simpa using updateSize_follows env w plan state changed calls
  | true =>
    simp only [if_true, Bool.or_true, List.singleton_append]
    cases h : env.SetPoolProperty w plan.Name.ValueString "pgp_num" plan.PgpNum.ValueInt64 with
    | mk r w1 =>
      cases r with
      | some err => exact FollowsPlan.fail _ rfl rfl rfl
      | none =>
        exact FollowsPlan.cons_ok (by simpa using updateSize_follows env w1 plan state true _)

/-- Every run of `Update` follows the plan of the selective diff: the mutation
calls in order, then the refresh read when something changed. -/
theorem Update_follows (env : Env) (w : World) (plan state : PoolResourceModel) :
    FollowsPlan (Update env w plan state) []
      (mutationCalls plan state ++ refreshCalls plan (anyChanged plan state)) := by
  unfold Update mutationCalls anyChanged
  cases hc : numberChanged plan.PgNum state.PgNum with
  | false =>
    simpa [List.append_assoc] using updatePgpNum_follows env w plan state false []
  | true =>
    simp only [if_true, Bool.true_or, List.singleton_append, List.append_assoc]
    cases h : env.SetPoolProperty w plan.Name.ValueString "pg_num" plan.PgNum.ValueInt64 with
    | mk r w1 =>
      cases r with
      | some err =>
        exact FollowsPlan.fail _ (List.nil_append _).symm rfl rfl
      | none =>
        exact FollowsPlan.cons_ok (by simpa using updatePgpNum_follows env w1 plan state true _)


/-- A beginning of `a ++ [g]` that ends in something other than `g` is a beginning of `a`. -/
theorem prefix_of_prefix_append_singleton {α : Type} {l a : List α} {c g : α}
    (h : l ++ [c] <+: a ++ [g]) (hne : c ≠ g) : l ++ [c] <+: a := by
  have hlen := h.length_le
  simp only [List.length_append, List.length_singleton] at hlen
  by_cases hle : l.length + 1 ≤ a.length
  · exact List.prefix_of_prefix_length_le h (List.prefix_append a [g]) (by simpa using hle)
  · have heq : l ++ [c] = a ++ [g] := h.eq_of_length (by simp; omega)
    have hcg : [c] = [g] := List.append_inj_right' heq rfl
    exact absurd (List.singleton_inj.1 hcg) hne

/-- The calls of an outcome that follows a plan from the start are a beginning of the plan. -/
theorem FollowsPlan.calls_prefix {o : Outcome} {rest : List ClientCall}
    (h : FollowsPlan o [] rest) : o.calls.map Prod.fst <+: rest := by
  obtain ⟨done, hcalls, hcase⟩ := h
  rw [hcalls, List.nil_append]
  rcases hcase with ⟨_, hmap, _, _⟩ | ⟨init, c, err, summary, text, hdone, _, hpre, _, _⟩
  · rw [hmap]
  · simpa [hdone] using hpre

/-- When every call succeeded, the calls are the whole plan and the operation saved a state. -/
theorem FollowsPlan.of_all_ok {o : Outcome} {rest : List ClientCall}
    (h : FollowsPlan o [] rest) (hok : ∀ x ∈ o.calls, x.2 = none) :
    o.calls.map Prod.fst = rest ∧ o.diagnostics = [] ∧ o.state.isSome = true := by
  obtain ⟨done, hcalls, hcase⟩ := h
  rw [List.nil_append] at hcalls
  rcases hcase with ⟨_, hmap, hd, hs⟩ | ⟨init, c, err, summary, text, hdone, _, _, _, _⟩
  · exact ⟨by rw [hcalls, hmap], hd, hs⟩
  · have hmem : (c, some err) ∈ o.calls := by rw [hcalls, hdone]; simp
    exact absurd (hok _ hmem) (by simp)

/-- When some call failed, it is the last call, every call before it succeeded,
the calls made are a beginning of the plan, and the operation ended with one
error whose detail ends in that call's error and with no saved state. -/
theorem FollowsPlan.of_failure {o : Outcome} {rest : List ClientCall}
    (h : FollowsPlan o [] rest) {c : ClientCall} {err : String}
    (hmem : (c, some err) ∈ o.calls) :
    ∃ init, o.calls = init ++ [(c, some err)] ∧ (∀ x ∈ init, x.2 = none)
      ∧ (init.map Prod.fst ++ [c]) <+: rest
      ∧ (∃ summary text,
          o.diagnostics = [{ severity := .error, summary := summary, detail := text ++ err }])
      ∧ o.state = none := by
  obtain ⟨done, hcalls, hcase⟩ := h
  rw [List.nil_append] at hcalls
  rcases hcase with ⟨hall, _, _, _⟩ | ⟨init, c2, err2, summary, text, hdone, hinit, hpre, hd, hs⟩
  · rw [hcalls] at hmem
    exact absurd (hall _ hmem) (by simp)
  · rw [hcalls, hdone] at hmem
    rcases List.mem_append.1 hmem with hin | hlast
    · exact absurd (hinit _ hin) (by simp)
    · have hpair : (c, some err) = (c2, some err2) := List.mem_singleton.1 hlast
      obtain ⟨hc, he⟩ := Prod.mk.inj hpair
      have he2 : err = err2 := Option.some.inj he
      subst hc
      subst he2
      exact ⟨init, by rw [hcalls, hdone], hinit, hpre, ⟨summary, text, hd⟩, hs⟩

/-- The property calls among the planned calls are the mutation calls. -/
theorem filter_planned_calls (plan state : PoolResourceModel) (changed : Bool) :
    (mutationCalls plan state ++ refreshCalls plan changed).filter ClientCall.isPropertyCall
      = mutationCalls plan state := by
  unfold mutationCalls refreshCalls
  cases numberChanged plan.PgNum state.PgNum <;> cases numberChanged plan.PgpNum state.PgpNum <;>
    cases numberChanged plan.Size state.Size <;>
    cases applicationChanged plan.Application state.Application <;> cases changed <;> rfl

/-- Every planned call addresses the pool by the plan's name; a planned
`setPoolProperty` targets pg_num, pgp_num or size. -/
theorem planned_call_shape (plan state : PoolResourceModel) (changed : Bool) (c : ClientCall)
    (hc : c ∈ mutationCalls plan state ++ refreshCalls plan changed) :
    c = .setPoolProperty plan.Name.ValueString "pg_num" plan.PgNum.ValueInt64
    ∨ c = .setPoolProperty plan.Name.ValueString "pgp_num" plan.PgpNum.ValueInt64
    ∨ c = .setPoolProperty plan.Name.ValueString "size" plan.Size.ValueInt64
    ∨ c = .setApplication plan.Name.ValueString plan.Application.ValueString
    ∨ c = .getPool plan.Name.ValueString := by
  unfold mutationCalls refreshCalls at hc
  simp only [List.mem_append] at hc
  rcases hc with (((h | h) | h) | h) | h <;> split at h <;> simp at h <;> simp [h]

/-- A field compared with itself is not changed. -/
theorem numberChanged_self (x : TfInt64) : numberChanged x x = false := by
  cases x <;> simp [numberChanged, TfInt64.IsNull]

/-- An application compared with itself is not changed. -/
theorem applicationChanged_self (x : TfString) : applicationChanged x x = false := by
  cases x <;> simp [applicationChanged, TfString.IsNull]

/-- When the selective diff finds nothing changed, `Update` makes no client
call, leaves the world alone and saves the plan. -/
theorem Update_unchanged (env : Env) (w : World) (plan state : PoolResourceModel)
    (h : anyChanged plan state = false) :
    (Update env w plan state).calls = []
    ∧ (Update env w plan state).world = w
    ∧ (Update env w plan state).state = some plan
    ∧ (Update env w plan state).diagnostics = []
    ∧ (Update env w plan state).removed = false := by
  simp only [anyChanged, Bool.or_eq_false_iff] at h
  obtain ⟨⟨⟨h1, h2⟩, h3⟩, h4⟩ := h
  simp [Update, updatePgpNum, updateSize, updateApplication, updateRefresh, h1, h2, h3, h4]

/-- C5: for every prior observed record, `Update` with a desired record
identical to it makes no client call at all (no setPoolProperty, no
setApplication, no GetPool refresh), sends nothing, records no diagnostic and
saves a record equal to the prior one. -/
theorem update_identical_is_noop (env : Env) (w : World) (prior : PoolResourceModel) :
    (Update env w prior prior).calls = []
    ∧ (Update env w prior prior).world = w
    ∧ (Update env w prior prior).world.sent = w.sent
    ∧ (Update env w prior prior).state = some prior
    ∧ (Update env w prior prior).diagnostics = [] := by
  have h : anyChanged prior prior = false := by
    simp [anyChanged, numberChanged_self, applicationChanged_self]
  have hu := Update_unchanged env w prior prior h
  exact ⟨hu.1, hu.2.1, by rw [hu.2.1], hu.2.2.1, hu.2.2.2.1⟩

/-- C6: for every prior observed record and every desired record that differs
from it only in size, the size set to a value v other than the prior one: when
the property call and the read succeed, `Update` makes exactly the two client
calls setPoolProperty(name, size, v) and then getPool(name), records no
diagnostic, and saves the record decoded from that read. -/
theorem update_size_only (env : Env) (w w1 w2 : World) (prior : PoolResourceModel) (v : Int)
    (poolData : PoolData)
    (hv : v ≠ prior.Size.ValueInt64)
    (hset : env.SetPoolProperty w prior.Name.ValueString "size" v = (none, w1))
    (hget : GetPool env w1 prior.Name.ValueString = (.ok poolData, w2)) :
    (Update env w { prior with Size := .value v } prior).calls =
        [(.setPoolProperty prior.Name.ValueString "size" v, none),
         (.getPool prior.Name.ValueString, none)]
    ∧ (Update env w { prior with Size := .value v } prior).state =
        some (applyPoolData { prior with Size := .value v } poolData)
    ∧ (Update env w { prior with Size := .value v } prior).diagnostics = []
    ∧ (Update env w { prior with Size := .value v } prior).world = w2 := by
  have hsize : numberChanged (TfInt64.value v) prior.Size = true := by
    have hv2 : (TfInt64.value v).ValueInt64 ≠ prior.Size.ValueInt64 := hv
    simp [numberChanged, TfInt64.IsNull, hv2]
  have hval : (TfInt64.value v).ValueInt64 = v := rfl
  simp [Update, updatePgpNum, updateSize, updateApplication, updateRefresh, numberChanged_self,
    applicationChanged_self, hsize, hval, hset, hget]


/-- Witness for C6: pool-a tracked with size 3, desired size 2, every exchange answered 200. -/
theorem update_size_only_witness :
    (Update (envAnswering 200 "") sessionWithToken
        { trackedPool "pool-a" with Size := .value 2 } (trackedPool "pool-a")).calls =
        [(.setPoolProperty "pool-a" "size" 2, none), (.getPool "pool-a", none)]
    ∧ (Update (envAnswering 200 "") sessionWithToken
        { trackedPool "pool-a" with Size := .value 2 } (trackedPool "pool-a")).state =
        some { trackedPool "pool-a" with Size := .value 2 } :=
  have h := update_size_only (envAnswering 200 "") sessionWithToken sessionWithToken
    (sessionWithToken.send (getPoolHttpRequest sessionWithToken.client "pool-a"))
    (trackedPool "pool-a") 2 [] (by decide) rfl rfl
  ⟨h.1, h.2.1⟩

/-- The numeric test on a desired optional value against a known prior value:
changed exactly when the desired value is set and is another number. -/
theorem numberChanged_ofOption (d : Option Int) (p : Int) :
    numberChanged (.ofOption d) (.value p) = true ↔ ∃ v, d = some v ∧ v ≠ p := by
  cases d <;> simp [numberChanged, TfInt64.ofOption, TfInt64.IsNull, TfInt64.ValueInt64]

/-- The application test on a desired optional tag: changed exactly when the
tag is set and the prior one is unset or holds another string. -/
theorem applicationChanged_ofOption (d : Option String) (p : TfString) :
    applicationChanged (.ofOption d) p = true
      ↔ ∃ a, d = some a ∧ (p = .null ∨ a ≠ p.ValueString) := by
  cases d <;> cases p <;>
    simp [applicationChanged, TfString.ofOption, TfString.IsNull, TfString.ValueString]

/-- C8: for every desired and prior record, when every client call `Update`
makes succeeds, the calls are exactly the planned mutation calls in order
(setPoolProperty pg_num, then pgp_num, then size, each when the desired field
is set and its value differs from the prior value, an unset prior field reading
as zero; then setApplication when the desired tag is set and differs from the
prior tag or the prior tag is unset) followed by the refresh read when
something changed; so the property calls are one per changed field and none
for an unchanged or unset field.  In every run, successful or not, each call
addresses the pool by the plan's name and a setPoolProperty targets pg_num,
pgp_num or size, never the name or the pool type. -/
theorem update_mutation_sequence (env : Env) (w : World) (plan state : PoolResourceModel) :
    ((∀ x ∈ (Update env w plan state).calls, x.2 = none) →
      (Update env w plan state).calls.map Prod.fst =
          mutationCalls plan state ++ refreshCalls plan (anyChanged plan state)
      ∧ ((Update env w plan state).calls.map Prod.fst).filter ClientCall.isPropertyCall =
          (if numberChanged plan.PgNum state.PgNum
            then [.setPoolProperty plan.Name.ValueString "pg_num" plan.PgNum.ValueInt64] else [])
          ++ (if numberChanged plan.PgpNum state.PgpNum
            then [.setPoolProperty plan.Name.ValueString "pgp_num" plan.PgpNum.ValueInt64] else [])
          ++ (if numberChanged plan.Size state.Size
            then [.setPoolProperty plan.Name.ValueString "size" plan.Size.ValueInt64] else [])
          ++ (if applicationChanged plan.Application state.Application
            then [.setApplication plan.Name.ValueString plan.Application.ValueString] else []))
    ∧ (∀ x ∈ (Update env w plan state).calls,
        x.1 = .setPoolProperty plan.Name.ValueString "pg_num" plan.PgNum.ValueInt64
        ∨ x.1 = .setPoolProperty plan.Name.ValueString "pgp_num" plan.PgpNum.ValueInt64
        ∨ x.1 = .setPoolProperty plan.Name.ValueString "size" plan.Size.ValueInt64
        ∨ x.1 = .setApplication plan.Name.ValueString plan.Application.ValueString
        ∨ x.1 = .getPool plan.Name.ValueString)
    ∧ (∀ x ∈ (Update env w plan state).calls, ∀ n k v, x.1 = .setPoolProperty n k v →
        k ≠ "name" ∧ k ≠ "pool" ∧ k ≠ "pool_type" ∧ k ≠ "type")
    ∧ (∀ (d : Option Int) (p : Int),
        numberChanged (.ofOption d) (.value p) = true ↔ ∃ v, d = some v ∧ v ≠ p)
    ∧ (∀ (d : Option String) (p : TfString),
        applicationChanged (.ofOption d) p = true
          ↔ ∃ a, d = some a ∧ (p = .null ∨ a ≠ p.ValueString)) := by
  have hf := Update_follows env w plan state
  have hshape : ∀ x ∈ (Update env w plan state).calls,
      x.1 = .setPoolProperty plan.Name.ValueString "pg_num" plan.PgNum.ValueInt64
      ∨ x.1 = .setPoolProperty plan.Name.ValueString "pgp_num" plan.PgpNum.ValueInt64
      ∨ x.1 = .setPoolProperty plan.Name.ValueString "size" plan.Size.ValueInt64
      ∨ x.1 = .setApplication plan.Name.ValueString plan.Application.ValueString
      ∨ x.1 = .getPool plan.Name.ValueString := by
    intro x hx
    have hmem : x.1 ∈ (Update env w plan state).calls.map Prod.fst := List.mem_map_of_mem _ hx
    exact planned_call_shape plan state _ _ (hf.calls_prefix.subset hmem)
  refine ⟨?_, hshape, ?_, numberChanged_ofOption, applicationChanged_ofOption⟩
  · intro hok
    have h := (hf.of_all_ok hok).1
    refine ⟨h, ?_⟩
    rw [h, filter_planned_calls]
    rfl
  · intro x hx n k v hk
    rcases hshape x hx with h | h | h | h | h <;> rw [h] at hk <;> cases hk <;> decide

/-- Witness for C8: pool-a tracked as (32, 32, 3, no application), desired
pg_num 64, size 2 and application rbd, every call succeeding. -/
theorem update_mutation_sequence_witness :
    (Update (envAnswering 200 "") sessionWithToken
        { trackedPool "pool-a" with PgNum := .value 64, Size := .value 2, Application := .value "rbd" }
        (trackedPool "pool-a")).calls.map Prod.fst =
      [.setPoolProperty "pool-a" "pg_num" 64, .setPoolProperty "pool-a" "size" 2,
       .setApplication "pool-a" "rbd", .getPool "pool-a"] :=
  ((update_mutation_sequence (envAnswering 200 "") sessionWithToken
      { trackedPool "pool-a" with PgNum := .value 64, Size := .value 2, Application := .value "rbd" }
      (trackedPool "pool-a")).1 (by decide)).1

/-- C9: for every desired and prior record, if a property call `Update` makes
(a setPoolProperty or a setApplication) fails, that call is the last client
call of the operation: every call before it succeeded, all the calls made are
a beginning of the planned mutation calls (so no later property call, no
refresh read and no compensating call), `Update` reports exactly one error
diagnostic whose detail ends in that call's error, and it saves no state. -/
theorem update_aborts_on_property_failure (env : Env) (w : World) (plan state : PoolResourceModel)
    (c : ClientCall) (err : String)
    (hmem : (c, some err) ∈ (Update env w plan state).calls)
    (hprop : c.isPropertyCall = true) :
    (∃ init, (Update env w plan state).calls = init ++ [(c, some err)]
        ∧ (∀ x ∈ init, x.2 = none)
        ∧ (init.map Prod.fst ++ [c]) <+: mutationCalls plan state)
    ∧ (∀ x ∈ (Update env w plan state).calls, x.1.isPropertyCall = true)
    ∧ (∃ summary text, (Update env w plan state).diagnostics =
        [{ severity := .error, summary := summary, detail := text ++ err }])
    ∧ (∀ d ∈ (Update env w plan state).diagnostics, containsText d.detail err)
    ∧ HasError (Update env w plan state).diagnostics = true
    ∧ (Update env w plan state).state = none := by
  obtain ⟨init, hcalls, hinit, hpre, ⟨summary, text, hd⟩, hs⟩ :=
    (Update_follows env w plan state).of_failure hmem
  have hpre2 : (init.map Prod.fst ++ [c]) <+: mutationCalls plan state := by
    unfold refreshCalls at hpre
    split at hpre
    · refine prefix_of_prefix_append_singleton hpre ?_
      intro hc
      rw [hc] at hprop
      exact absurd hprop (by simp [ClientCall.isPropertyCall])
    · simpa using hpre
  refine ⟨⟨init, hcalls, hinit, hpre2⟩, ?_, ⟨summary, text, hd⟩, ?_, ?_, hs⟩
  · intro x hx
    have hx1 : x.1 ∈ init.map Prod.fst ++ [c] := by
      rw [hcalls] at hx
      rcases List.mem_append.1 hx with h | h
      · exact List.mem_append_left _ (List.mem_map_of_mem _ h)
      · rw [List.mem_singleton.1 h]; simp
    have hx2 : x.1 ∈ (mutationCalls plan state ++ refreshCalls plan false).filter
        ClientCall.isPropertyCall := by
      rw [filter_planned_calls]
      exact hpre2.subset hx1
    exact (List.mem_filter.1 hx2).2
  · intro d hdm
    rw [hd] at hdm
    rw [List.mem_singleton.1 hdm]
    exact ⟨text, "", by simp⟩
  · rw [hd]; rfl

/-- Witness for C9: desired pg_num 64 and size 2 over pool-a tracked as
(32, 32, 3); the pg_num call succeeds, the size call fails, and `Update` stops there. -/
theorem update_aborts_on_property_failure_witness :
    (Update (envPropertyFails "size" "status 500") sessionWithToken
        { trackedPool "pool-a" with PgNum := .value 64, Size := .value 2, Application := .value "rbd" }
        (trackedPool "pool-a")).calls =
      [(.setPoolProperty "pool-a" "pg_num" 64, none),
       (.setPoolProperty "pool-a" "size" 2, some "status 500")]
    ∧ (Update (envPropertyFails "size" "status 500") sessionWithToken
        { trackedPool "pool-a" with PgNum := .value 64, Size := .value 2, Application := .value "rbd" }
        (trackedPool "pool-a")).state = none
    ∧ HasError (Update (envPropertyFails "size" "status 500") sessionWithToken
        { trackedPool "pool-a" with PgNum := .value 64, Size := .value 2, Application := .value "rbd" }
        (trackedPool "pool-a")).diagnostics = true :=
  have h := update_aborts_on_property_failure (envPropertyFails "size" "status 500") sessionWithToken
    { trackedPool "pool-a" with PgNum := .value 64, Size := .value 2, Application := .value "rbd" }
    (trackedPool "pool-a") (.setPoolProperty "pool-a" "size" 2) "status 500" (by decide) rfl
  ⟨by decide, h.2.2.2.2.2, h.2.2.2.2.1⟩


/-! ## Read: defensive decoding -/

/-- Each field of the decoded model depends on its own key only. -/
theorem applyPoolData_fields (m : PoolResourceModel) (poolData : PoolData) :
    (applyPoolData m poolData).ID = m.ID
    ∧ (applyPoolData m poolData).Name = m.Name
    ∧ (applyPoolData m poolData).PoolType =
        (match poolData.lookup "type" with
         | some (.string s) => .value s
         | _ => m.PoolType)
    ∧ (applyPoolData m poolData).PgNum =
        (match poolData.lookup "pg_num" with
         | some (.number f) => .value f.toInt64
         | _ => m.PgNum)
    ∧ (applyPoolData m poolData).PgpNum =
        (match poolData.lookup "pgp_num" with
         | some (.number f) => .value f.toInt64
         | _ => m.PgpNum)
    ∧ (applyPoolData m poolData).Size =
        (match poolData.lookup "size" with
         | some (.number f) => .value f.toInt64
         | _ => m.Size)
    ∧ (applyPoolData m poolData).Application =
        (match poolData.lookup "application_metadata" with
         | some (.object ((app, _) :: _)) => .value app
         | _ => m.Application) := by
  unfold applyPoolData
  refine ⟨?_, ?_, ?_, ?_, ?_, ?_, ?_⟩ <;> simp only [] <;>
    split <;> split <;> split <;> split <;> split <;> simp_all

/-- The conversion of a float that holds an integer of the int64 range gives that integer. -/
theorem Float64.toInt64_of_isInt (f : Float64) (n : Int) (h : f.isInt n = true)
    (hlo : -(2 ^ 63) ≤ n) (hhi : n < 2 ^ 63) : f.toInt64 = n := by
  unfold Float64.isInt at h
  unfold Float64.toInt64
  by_cases hexp : 0 ≤ f.exp
  · simp only [hexp, if_true, decide_eq_true_eq] at h
    simp only [hexp, if_true, h]
    rw [if_pos ⟨hlo, hhi⟩]
  · simp only [hexp, if_false, decide_eq_true_eq] at h
    have hpow : (2 : Int) ^ (-f.exp).toNat ≠ 0 := pow_ne_zero _ (by decide)
    simp only [hexp, if_false, h, Int.mul_tdiv_cancel n hpow]
    rw [if_pos ⟨hlo, hhi⟩]


/-- C10, as stated, fails: reading pool-a (tracked with application rbd)
against the payload with pg_num 2.5 and an empty application_metadata map, the
returned pg_num is 2, which is not the payload's number, and the returned
application is the prior rbd although the key is present with a map. -/
theorem read_decode_counterexample :
    (Read (envPool [("pg_num", .number { mant := 5, exp := -1 }),
                    ("application_metadata", .object [])])
        sessionWithToken { trackedPool "pool-a" with Application := .value "rbd" }).state =
      some { trackedPool "pool-a" with PgNum := .value 2, Application := .value "rbd" }
    ∧ Float64.isInt { mant := 5, exp := -1 } 2 = false := by
  decide

/-- C10, amended: for every prior state and every successfully decoded pool
payload, `Read` records no diagnostic (so no error), does not remove the
resource, and saves a record in which name and id are the prior ones and each
other field follows from its own key alone: type takes the payload's string;
pg_num, pgp_num and size take the payload's number converted to int64 (the
number itself when it holds an integer of the int64 range); the application
takes the first key the iteration over a non-empty application_metadata map
yields and keeps the prior value when the map is empty; and a key that is
absent or holds a value of another JSON type leaves the prior value. -/
theorem read_decodes_defensively (env : Env) (w w1 : World) (prior : PoolResourceModel)
    (poolData : PoolData)
    (hget : GetPool env w prior.Name.ValueString = (.ok poolData, w1)) :
    (Read env w prior).diagnostics = []
    ∧ (Read env w prior).removed = false
    ∧ (Read env w prior).state = some (applyPoolData prior poolData)
    ∧ (applyPoolData prior poolData).ID = prior.ID
    ∧ (applyPoolData prior poolData).Name = prior.Name
    ∧ DecodesString (poolData.lookup "type") prior.PoolType (applyPoolData prior poolData).PoolType
    ∧ DecodesNumber (poolData.lookup "pg_num") prior.PgNum (applyPoolData prior poolData).PgNum
    ∧ DecodesNumber (poolData.lookup "pgp_num") prior.PgpNum (applyPoolData prior poolData).PgpNum
    ∧ DecodesNumber (poolData.lookup "size") prior.Size (applyPoolData prior poolData).Size
    ∧ DecodesApplication (poolData.lookup "application_metadata") prior.Application
        (applyPoolData prior poolData).Application := by
  obtain ⟨hid, hname, htype, hpg, hpgp, hsize, happ⟩ := applyPoolData_fields prior poolData
  have hnum : ∀ (entry : Option JsonValue) (p r : TfInt64),
      r = (match entry with
           | some (.number f) => .value f.toInt64
           | _ => p) → DecodesNumber entry p r := by
    intro entry p r hr
    refine ⟨?_, ?_⟩
    · intro f hf
      subst hf
      refine ⟨hr, ?_⟩
      intro n hn hlo hhi
      rw [hr]
      show TfInt64.value f.toInt64 = TfInt64.value n
      rw [Float64.toInt64_of_isInt f n hn hlo hhi]
    · intro hno
      rw [hr]
      split
      · next f => exact absurd rfl (hno f)
      · rfl
  refine ⟨?_, ?_, ?_, hid, hname, ?_, hnum _ _ _ hpg, hnum _ _ _ hpgp, hnum _ _ _ hsize, ?_⟩
  · simp [Read, hget]
  · simp [Read, hget]
  · simp [Read, hget]
  · refine ⟨?_, ?_⟩
    · intro s hs
      rw [htype, hs]
    · intro hno
      rw [htype]
      split
      · next s heq => exact absurd heq (hno s)
      · rfl
  · refine ⟨?_, ?_, ?_⟩
    · intro app v others h
      rw [happ, h]
    · intro h
      rw [happ, h]
    · intro hno
      rw [happ]
      split
      · next app v others heq => exact absurd heq (hno _)
      · rfl

/-- Witness for the amended C10: pool-a read against a payload holding a type
and a pg_num only; the two fields are taken over, the others stay. -/
theorem read_decodes_defensively_witness :
    (Read (envPool [("type", .string "erasure"), ("pg_num", .number { mant := 1, exp := 6 })])
        sessionWithToken (trackedPool "pool-a")).state =
      some (applyPoolData (trackedPool "pool-a")
        [("type", .string "erasure"), ("pg_num", .number { mant := 1, exp := 6 })])
    ∧ (applyPoolData (trackedPool "pool-a")
        [("type", .string "erasure"), ("pg_num", .number { mant := 1, exp := 6 })]).PgNum = .value 64
    ∧ (applyPoolData (trackedPool "pool-a")
        [("type", .string "erasure"), ("pg_num", .number { mant := 1, exp := 6 })]).Size = .value 3 :=
  have h := read_decodes_defensively
    (envPool [("type", .string "erasure"), ("pg_num", .number { mant := 1, exp := 6 })])
    sessionWithToken (sessionWithToken.send (getPoolHttpRequest sessionWithToken.client "pool-a"))
    (trackedPool "pool-a")
    [("type", .string "erasure"), ("pg_num", .number { mant := 1, exp := 6 })] rfl
  ⟨h.2.2.1,
   (h.2.2.2.2.2.2.1.1 { mant := 1, exp := 6 } rfl).2 64 (by decide) (by decide) (by decide),
   h.2.2.2.2.2.2.2.2.1.2 (fun f hf => by simp [List.lookup] at hf)⟩


/-! ## Read: the application tag -/

/-- The application the resource's decoding leaves is the first key rule applied to the prior value. -/
theorem applyPoolData_application (m : PoolResourceModel) (poolData : PoolData) :
    (applyPoolData m poolData).Application =
      applicationAfter (poolData.lookup "application_metadata") m.Application := by
  rw [(applyPoolData_fields m poolData).2.2.2.2.2.2]
  unfold applicationAfter firstKey
  split
  · next app v others heq => rw [heq]; rfl
  · next hno =>
    split
    · next kvs heq =>
      cases kvs with
      | nil => rfl
      | cons kv others =>
        obtain ⟨app, v⟩ := kv
        exact absurd heq (hno app v others)
    · rfl

/-- The application the data source's mapping leaves is the first key rule
applied to the configured value. -/
theorem applyPoolDataSource_application (poolName : String) (m : PoolDataSourceModel)
    (poolData : PoolData) :
    (applyPoolDataSource poolName m poolData).Application =
      applicationAfter (poolData.lookup "application_metadata") m.Application := by
  have h : (applyPoolDataSource poolName m poolData).Application =
      (match poolData.lookup "application_metadata" with
       | some (.object ((app, _) :: _)) => .value app
       | _ => m.Application) := by
    unfold applyPoolDataSource
    simp only []
    split <;> split <;> split <;> split <;> simp_all
  rw [h]
  unfold applicationAfter firstKey
  split
  · next app v others heq => rw [heq]; rfl
  · next hno =>
    split
    · next kvs heq =>
      cases kvs with
      | nil => rfl
      | cons kv others =>
        obtain ⟨app, v⟩ := kv
        exact absurd heq (hno app v others)
    · rfl


/-- The application computed by the first key rule follows it. -/
theorem applicationAfter_follows (entry : Option JsonValue) (before : TfString) :
    FollowsFirstKey entry before (applicationAfter entry before) := by
  refine ⟨?_, ?_, ?_⟩
  · intro kvs he hne
    subst he
    cases kvs with
    | nil => exact absurd rfl hne
    | cons kv others =>
      refine ⟨kv.1, rfl, rfl, by simp, ?_⟩
      intro k hk
      simp only [List.map_cons, List.cons.injEq] at hk
      exact hk.1
  · intro he
    subst he
    rfl
  · intro he
    subst he
    rfl

/-- C11, as stated, fails: reading pool-a, tracked with application rbd,
against a payload without the application_metadata key, and against one whose
map is empty, the returned application is rbd in both cases, not unset. -/
theorem read_application_counterexample :
    (Read (envPool []) sessionWithToken
        { trackedPool "pool-a" with Application := .value "rbd" }).state =
      some { trackedPool "pool-a" with Application := .value "rbd" }
    ∧ (Read (envPool [("application_metadata", .object [])]) sessionWithToken
        { trackedPool "pool-a" with Application := .value "rbd" }).state =
      some { trackedPool "pool-a" with Application := .value "rbd" }
    ∧ TfString.value "rbd" ≠ TfString.null := by
  decide

/-- C11, amended: for every prior state and decoded payload, the application
tag the resource's `Read` returns is the first key the iteration over the
payload's application_metadata map yields when that map is present and
non-empty (always one of the map's keys, and the only key when the map has
exactly one), and it is the prior state's application when the map is empty or
absent; the data source's `Read` follows the same rule over its configuration,
so it leaves the application unset when the map is empty or absent and the
configuration holds none. -/
theorem read_application_first_key (env : Env) (w w1 w2 : World) (prior : PoolResourceModel)
    (config : PoolDataSourceModel) (poolData poolData2 : PoolData)
    (hget : GetPool env w prior.Name.ValueString = (.ok poolData, w1))
    (hget2 : GetPool env w config.Name.ValueString = (.ok poolData2, w2)) :
    (∃ m, (Read env w prior).state = some m
        ∧ FollowsFirstKey (poolData.lookup "application_metadata") prior.Application m.Application)
    ∧ (∃ m, (poolDataSource.Read env w config).state = some m
        ∧ FollowsFirstKey (poolData2.lookup "application_metadata") config.Application m.Application
        ∧ (config.Application = .null →
            poolData2.lookup "application_metadata" = none
              ∨ poolData2.lookup "application_metadata" = some (.object []) →
            m.Application = .null)) := by
  refine ⟨⟨applyPoolData prior poolData, by simp [Read, hget], ?_⟩,
    ⟨applyPoolDataSource config.Name.ValueString config poolData2,
      by simp [poolDataSource.Read, hget2], ?_, ?_⟩⟩
  · rw [applyPoolData_application]
    exact applicationAfter_follows _ _
  · rw [applyPoolDataSource_application]
    exact applicationAfter_follows _ _
  · intro hnull hcase
    have hf : FollowsFirstKey (poolData2.lookup "application_metadata") config.Application
        (applyPoolDataSource config.Name.ValueString config poolData2).Application := by
      rw [applyPoolDataSource_application]
      exact applicationAfter_follows _ _
    rcases hcase with h | h
    · rw [hf.2.2 h, hnull]
    · rw [hf.2.1 h, hnull]

/-- Witness for the amended C11: pool-a read against a payload whose
application_metadata map holds the keys rgw and rbd, iterated in that order, by
the resource and by the data source. -/
theorem read_application_first_key_witness :
    (∃ m, (Read (envPool [("application_metadata", .object [("rgw", .null), ("rbd", .null)])])
          sessionWithToken (trackedPool "pool-a")).state = some m
        ∧ FollowsFirstKey (some (.object [("rgw", .null), ("rbd", .null)])) .null m.Application)
    ∧ (Read (envPool [("application_metadata", .object [("rgw", .null), ("rbd", .null)])])
          sessionWithToken (trackedPool "pool-a")).state =
        some { trackedPool "pool-a" with Application := .value "rgw" } :=
  ⟨(read_application_first_key
      (envPool [("application_metadata", .object [("rgw", .null), ("rbd", .null)])])
      sessionWithToken
      (sessionWithToken.send (getPoolHttpRequest sessionWithToken.client "pool-a"))
      (sessionWithToken.send (getPoolHttpRequest sessionWithToken.client "pool-a"))
      (trackedPool "pool-a") (dataSourceConfig "pool-a")
      [("application_metadata", .object [("rgw", .null), ("rbd", .null)])]
      [("application_metadata", .object [("rgw", .null), ("rbd", .null)])] rfl rfl).1,
   by decide⟩


/-! ## Lazy authentication -/

/-- Appending to the same string is injective. -/
theorem append_left_cancel_string (e a b : String) (h : e ++ a = e ++ b) : a = b := by
  have h2 := congrArg String.data h
  simp only [String.data_append] at h2
  exact String.ext (List.append_cancel_left h2)

/-- The pool collection path is not the authentication path. -/
theorem pool_url_ne_auth_url (e : String) : e ++ "/api/pool" ≠ e ++ "/api/auth" := by
  intro h
  exact absurd (append_left_cancel_string _ _ _ h) (by decide)

/-- The path of a named pool is not the authentication path. -/
theorem named_pool_url_ne_auth_url (e n : String) : e ++ "/api/pool/" ++ n ≠ e ++ "/api/auth" := by
  intro h
  rw [String.append_assoc] at h
  have h1 := congrArg String.data (append_left_cancel_string _ _ _ h)
  rw [String.data_append] at h1
  have h2 : "/api/pool/".data = ['/', 'a', 'p', 'i', '/', 'p', 'o', 'o', 'l', '/'] := rfl
  have h3 : "/api/auth".data = ['/', 'a', 'p', 'i', '/', 'a', 'u', 't', 'h'] := rfl
  rw [h2, h3] at h1
  simp at h1

/-- What `Authenticate` does to the world: it sends nothing or exactly its one
request; it sends that request whenever it succeeds; it never changes the
endpoint; and it leaves the whole client alone whenever it fails. -/
theorem Authenticate_world (env : Env) (w : World) :
    ((Authenticate env w).2.sent = w.sent
      ∨ (Authenticate env w).2.sent = w.sent ++ [authHttpRequest w.client])
    ∧ ((Authenticate env w).1 = none →
        (Authenticate env w).2.sent = w.sent ++ [authHttpRequest w.client])
    ∧ (Authenticate env w).2.client.Endpoint = w.client.Endpoint
    ∧ ((Authenticate env w).1 ≠ none → (Authenticate env w).2.client = w.client) := by
  unfold Authenticate
  simp only [authHttpRequest]
  cases env.newRequestError "POST" (w.client.Endpoint ++ "/api/auth") with
  | some err => simp
  | none =>
    simp only []
    cases env.roundTrip w.sent _ with
    | transportError err => simp [World.send]
    | response status respBody =>
      simp only []
      split
      · simp [World.send]
      · cases env.decodeAuthResponse respBody with
        | error err => simp [World.send]
        | ok token => simp [World.send]


/-- A call that opens with the lazy authentication, returns its error
unchanged, and otherwise sends at most its substantive request, keeps the
lazy authentication contract. -/
theorem LazyAuthContract.of_ensureToken (env : Env) (w : World) (err : Option String)
    (after : World) (request : CephClient → HttpRequest)
    (hfail : ∀ e w0, ensureToken env w = (some e, w0) → err = some e ∧ after = w0)
    (hok : ∀ w0, ensureToken env w = (none, w0) →
      after.sent = w0.sent ∨ after.sent = w0.sent ++ [request w0.client])
    (hne : ∀ c : CephClient, isAuthRequest c.Endpoint (request c) = false) :
    LazyAuthContract env w err after request := by
  have hw := Authenticate_world env w
  refine ⟨?_, ?_, hne, by simp [isAuthRequest, authHttpRequest]⟩
  · intro htok
    have hens : ensureToken env w = Authenticate env w := by simp [ensureToken, htok]
    refine ⟨?_, ?_⟩
    · intro e w0 ha
      obtain ⟨h1, h2⟩ := hfail e w0 (by rw [hens, ha])
      refine ⟨h1, h2, ?_⟩
      rw [ha] at hw
      rw [h2]
      exact hw.1
    · intro w0 ha
      rw [ha] at hw
      have hsent : w0.sent = w.sent ++ [authHttpRequest w.client] := hw.2.1 rfl
      refine ⟨hw.2.2.1, ?_⟩
      rcases hok w0 (by rw [hens, ha]) with h | h
      · left; rw [h, hsent]
      · right; rw [h, hsent]; simp
  · intro htok
    exact hok w (ensureToken_of_token env w htok)

/-- `CreatePool` keeps the lazy authentication contract. -/
theorem CreatePool_lazy_auth (env : Env) (w : World) (poolReq : PoolCreateRequest) :
    LazyAuthContract env w (CreatePool env w poolReq).1 (CreatePool env w poolReq).2
      (fun c => createPoolHttpRequest c poolReq) := by
  apply LazyAuthContract.of_ensureToken
  · intro e w0 h
    simp [CreatePool, h]
  · intro w0 h
    unfold CreatePool
    simp only [h, createPoolHttpRequest]
    cases env.newRequestError "POST" (w0.client.Endpoint ++ "/api/pool") with
    | some err => left; rfl
    | none =>
      right
      simp only []
      cases env.roundTrip w0.sent _ with
      | transportError err => rfl
      | response status respBody => dsimp only; split <;> rfl
  · intro c
    simp [isAuthRequest, createPoolHttpRequest, pool_url_ne_auth_url]

/-- `GetPool` keeps the lazy authentication contract. -/
theorem GetPool_lazy_auth (env : Env) (w : World) (poolName : String) :
    LazyAuthContract env w (errorOf (GetPool env w poolName).1) (GetPool env w poolName).2
      (fun c => getPoolHttpRequest c poolName) := by
  apply LazyAuthContract.of_ensureToken
  · intro e w0 h
    simp [GetPool, h, errorOf]
  · intro w0 h
    unfold GetPool
    simp only [h, getPoolHttpRequest]
    cases env.newRequestError "GET" (w0.client.Endpoint ++ "/api/pool/" ++ poolName) with
    | some err => left; rfl
    | none =>
      right
      simp only []
      cases env.roundTrip w0.sent _ with
      | transportError err => rfl
      | response status respBody =>
        dsimp only
        split
        · rfl
        · split
          · rfl
          · cases env.decodePool respBody <;> rfl
  · intro c
    simp [isAuthRequest, getPoolHttpRequest, named_pool_url_ne_auth_url]

/-- `DeletePool` keeps the lazy authentication contract. -/
theorem DeletePool_lazy_auth (env : Env) (w : World) (poolName : String) :
    LazyAuthContract env w (DeletePool env w poolName).1 (DeletePool env w poolName).2
      (fun c => deletePoolHttpRequest c poolName) := by
  apply LazyAuthContract.of_ensureToken
  · intro e w0 h
    simp [DeletePool, h]
  · intro w0 h
    unfold DeletePool
    simp only [h, deletePoolHttpRequest]
    cases env.newRequestError "DELETE" (w0.client.Endpoint ++ "/api/pool/" ++ poolName) with
    | some err => left; rfl
    | none =>
      right
      simp only []
      cases env.roundTrip w0.sent _ with
      | transportError err => rfl
      | response status respBody => dsimp only; split <;> rfl
  · intro c
    simp [isAuthRequest, deletePoolHttpRequest, named_pool_url_ne_auth_url]

/-- C12: for each of createPool, getPool and deletePool: on a session whose
token is empty, authentication runs once before the substantive request, so
that at most the one authentication request is sent, and exactly that one when
authentication succeeds; if authentication fails the call returns the
authentication error unchanged and leaves the world as authentication left it,
the substantive request never sent; on a session whose token is non-empty the
only request that can be sent is the substantive one, which never goes to the
authentication path. -/
theorem lazy_authentication_once (env : Env) (w : World) (poolReq : PoolCreateRequest)
    (poolName : String) :
    LazyAuthContract env w (CreatePool env w poolReq).1 (CreatePool env w poolReq).2
        (fun c => createPoolHttpRequest c poolReq)
    ∧ LazyAuthContract env w (errorOf (GetPool env w poolName).1) (GetPool env w poolName).2
        (fun c => getPoolHttpRequest c poolName)
    ∧ LazyAuthContract env w (DeletePool env w poolName).1 (DeletePool env w poolName).2
        (fun c => deletePoolHttpRequest c poolName) :=
  ⟨CreatePool_lazy_auth env w poolReq, GetPool_lazy_auth env w poolName,
    DeletePool_lazy_auth env w poolName⟩


/-- Witness for C12: createPool of pool-a on a session without a token, the
authentication answered 401: the call returns the authentication error, and
the one request sent is the authentication request. -/
theorem lazy_authentication_once_witness :
    (CreatePool (envAnswering 401 "denied") sessionNoToken
        (resolveDefaults (PoolSpec.named "pool-a"))).1
      = some "authentication failed with status 401: denied"
    ∧ (CreatePool (envAnswering 401 "denied") sessionNoToken
        (resolveDefaults (PoolSpec.named "pool-a"))).2
      = sessionNoToken.send (authHttpRequest sessionNoToken.client) :=
  have h := ((lazy_authentication_once (envAnswering 401 "denied") sessionNoToken
      (resolveDefaults (PoolSpec.named "pool-a")) "pool-a").1.1 rfl).1
    "authentication failed with status 401: denied"
    (sessionNoToken.send (authHttpRequest sessionNoToken.client)) (by decide)
  ⟨h.1, h.2.1⟩

/-! ## The token after a rejected call -/

/-- `CreatePool` on a session holding a token leaves the client as it was. -/
theorem CreatePool_keeps_client (env : Env) (w : World) (poolReq : PoolCreateRequest)
    (htok : w.client.Token ≠ "") : (CreatePool env w poolReq).2.client = w.client := by
  unfold CreatePool
  simp only [ensureToken_of_token env w htok]
  cases env.newRequestError "POST" (w.client.Endpoint ++ "/api/pool") with
  | some err => rfl
  | none =>
    simp only []
    cases env.roundTrip w.sent _ with
    | transportError err => rfl
    | response status respBody => dsimp only; split <;> rfl

/-- `GetPool` on a session holding a token leaves the client as it was. -/
theorem GetPool_keeps_client (env : Env) (w : World) (poolName : String)
    (htok : w.client.Token ≠ "") : (GetPool env w poolName).2.client = w.client := by
  unfold GetPool
  simp only [ensureToken_of_token env w htok]
  cases env.newRequestError "GET" (w.client.Endpoint ++ "/api/pool/" ++ poolName) with
  | some err => rfl
  | none =>
    simp only []
    cases env.roundTrip w.sent _ with
    | transportError err => rfl
    | response status respBody =>
      dsimp only
      split
      · rfl
      · split
        · rfl
        · cases env.decodePool respBody <;> rfl

/-- `DeletePool` on a session holding a token leaves the client as it was. -/
theorem DeletePool_keeps_client (env : Env) (w : World) (poolName : String)
    (htok : w.client.Token ≠ "") : (DeletePool env w poolName).2.client = w.client := by
  unfold DeletePool
  simp only [ensureToken_of_token env w htok]
  cases env.newRequestError "DELETE" (w.client.Endpoint ++ "/api/pool/" ++ poolName) with
  | some err => rfl
  | none =>
    simp only []
    cases env.roundTrip w.sent _ with
    | transportError err => rfl
    | response status respBody => dsimp only; split <;> rfl

/-- C13, as stated, fails: getPool of pool-a on a session holding the token
tok, answered 401, fails and leaves the token tok in place, and a second
getPool sends its request with the same token and no authentication request. -/
theorem rejected_token_counterexample :
    (GetPool (envAnswering 401 "unauthorized") sessionWithToken "pool-a").2.client.Token = "tok"
    ∧ errorOf (GetPool (envAnswering 401 "unauthorized") sessionWithToken "pool-a").1
        = some "failed to get pool with status 401: unauthorized"
    ∧ (GetPool (envAnswering 401 "unauthorized")
        (GetPool (envAnswering 401 "unauthorized") sessionWithToken "pool-a").2 "pool-a").2.sent
      = [getPoolHttpRequest sessionWithToken.client "pool-a",
         getPoolHttpRequest sessionWithToken.client "pool-a"] := by
  decide

/-- C13, amended: for every session holding a token, each of createPool,
getPool and deletePool leaves the client, and so the token, as it was,
whatever the server answers; answered 401 the call fails with an error that
carries the status and the response body; and the call that follows does not
authenticate again: its lazy authentication is a no-op on the same token. -/
theorem rejected_token_is_kept (env : Env) (w : World) (poolReq : PoolCreateRequest)
    (poolName body : String) (htok : w.client.Token ≠ "") :
    ((CreatePool env w poolReq).2.client = w.client
      ∧ (GetPool env w poolName).2.client = w.client
      ∧ (DeletePool env w poolName).2.client = w.client)
    ∧ (ensureToken env (CreatePool env w poolReq).2 = (none, (CreatePool env w poolReq).2)
      ∧ ensureToken env (GetPool env w poolName).2 = (none, (GetPool env w poolName).2)
      ∧ ensureToken env (DeletePool env w poolName).2 = (none, (DeletePool env w poolName).2))
    ∧ (env.newRequestError "POST" (w.client.Endpoint ++ "/api/pool") = none →
        env.roundTrip w.sent (createPoolHttpRequest w.client poolReq) = .response 401 body →
        (CreatePool env w poolReq).1 = some ("failed to create pool with status 401: " ++ body))
    ∧ (env.newRequestError "GET" (w.client.Endpoint ++ "/api/pool/" ++ poolName) = none →
        env.roundTrip w.sent (getPoolHttpRequest w.client poolName) = .response 401 body →
        errorOf (GetPool env w poolName).1 = some ("failed to get pool with status 401: " ++ body))
    ∧ (env.newRequestError "DELETE" (w.client.Endpoint ++ "/api/pool/" ++ poolName) = none →
        env.roundTrip w.sent (deletePoolHttpRequest w.client poolName) = .response 401 body →
        (DeletePool env w poolName).1 = some ("failed to delete pool with status 401: " ++ body)) := by
  have hc := CreatePool_keeps_client env w poolReq htok
  have hg := GetPool_keeps_client env w poolName htok
  have hd := DeletePool_keeps_client env w poolName htok
  have h401 : renderStatus 401 = "401" := by decide
  refine ⟨⟨hc, hg, hd⟩, ⟨?_, ?_, ?_⟩, ?_, ?_, ?_⟩
  · exact ensureToken_of_token env _ (by rw [hc]; exact htok)
  · exact ensureToken_of_token env _ (by rw [hg]; exact htok)
  · exact ensureToken_of_token env _ (by rw [hd]; exact htok)
  · intro hurl hresp
    simp only [createPoolHttpRequest] at hresp
    unfold CreatePool
    simp only [ensureToken_of_token env w htok, hurl, hresp]
    simp only [h401]
    rfl
  · intro hurl hresp
    simp only [getPoolHttpRequest] at hresp
    unfold GetPool
    simp only [ensureToken_of_token env w htok, hurl, hresp]
    simp only [h401]
    rfl
  · intro hurl hresp
    simp only [deletePoolHttpRequest] at hresp
    unfold DeletePool
    simp only [ensureToken_of_token env w htok, hurl, hresp]
    simp only [h401]
    rfl

/-- Witness for the amended C13: deletePool of pool-a on a session holding a
token, answered 401. -/
theorem rejected_token_is_kept_witness :
    (DeletePool (envAnswering 401 "unauthorized") sessionWithToken "pool-a").2.client
      = sessionWithToken.client
    ∧ (DeletePool (envAnswering 401 "unauthorized") sessionWithToken "pool-a").1
      = some ("failed to delete pool with status 401: " ++ "unauthorized") :=
  have h := rejected_token_is_kept (envAnswering 401 "unauthorized") sessionWithToken
    (resolveDefaults (PoolSpec.named "pool-a")) "pool-a" "unauthorized" (by decide)
  ⟨h.1.2.2, h.2.2.2.2 rfl rfl⟩


/-! ## Authenticate -/

/-- C14, as stated, fails: the authentication request answered 204, a 2xx
status, with a body that decodes to a token: `Authenticate` fails and the
session's token stays empty. -/
theorem authenticate_2xx_counterexample :
    (envAnswering 204 "").roundTrip sessionNoToken.sent (authHttpRequest sessionNoToken.client)
      = .response 204 ""
    ∧ (envAnswering 204 "").decodeAuthResponse "" = .ok "fresh"
    ∧ (Authenticate (envAnswering 204 "") sessionNoToken).1
      = some "authentication failed with status 204: "
    ∧ (Authenticate (envAnswering 204 "") sessionNoToken).2.client.Token = "" :=
  ⟨by decide, rfl, by decide, by decide⟩

/-- C14, amended: for every response to the POST /api/auth request: if the
status is 200 or 201 and the body decodes, `Authenticate` succeeds and the
session's token becomes the token in the response, the rest of the client
unchanged; if the status is 200 or 201 and the body does not decode, it fails
with the decoding error and leaves the client as it was; if the status is
anything else, other 2xx statuses included, it fails with an error whose
message carries the status and the response body, and leaves the client, so
the token, as it was. -/
theorem authenticate_on_response (env : Env) (w : World) (status : Nat) (body : String)
    (hurl : env.newRequestError "POST" (w.client.Endpoint ++ "/api/auth") = none)
    (hresp : env.roundTrip w.sent (authHttpRequest w.client) = .response status body) :
    (status = 200 ∨ status = 201 → ∀ token, env.decodeAuthResponse body = .ok token →
        (Authenticate env w).1 = none
        ∧ (Authenticate env w).2.client = { w.client with Token := token }
        ∧ (Authenticate env w).2.client.Token = token)
    ∧ (status = 200 ∨ status = 201 → ∀ e, env.decodeAuthResponse body = .error e →
        (Authenticate env w).1 = some ("failed to decode auth response: " ++ e)
        ∧ (Authenticate env w).2.client = w.client)
    ∧ (status ≠ 200 → status ≠ 201 →
        (Authenticate env w).1
          = some ("authentication failed with status " ++ renderStatus status ++ ": " ++ body)
        ∧ (∀ msg, (Authenticate env w).1 = some msg → containsText msg body)
        ∧ (Authenticate env w).2.client = w.client
        ∧ (Authenticate env w).2.client.Token = w.client.Token)
    ∧ (Authenticate env w).2.sent = w.sent ++ [authHttpRequest w.client] := by
  simp only [authHttpRequest] at hresp
  refine ⟨?_, ?_, ?_, ?_⟩
  · intro hs token hdec
    have hcond : ¬ (status ≠ 201 ∧ status ≠ 200) := by
      rcases hs with h | h <;> simp [h]
    simp [Authenticate, hurl, hresp, hcond, hdec, World.send]
  · intro hs e hdec
    have hcond : ¬ (status ≠ 201 ∧ status ≠ 200) := by
      rcases hs with h | h <;> simp [h]
    simp [Authenticate, hurl, hresp, hcond, hdec, World.send]
  · intro h200 h201
    have hcond : status ≠ 201 ∧ status ≠ 200 := ⟨h201, h200⟩
    have hA : Authenticate env w =
        (some ("authentication failed with status " ++ renderStatus status ++ ": " ++ body),
         w.send (authHttpRequest w.client)) := by
      unfold Authenticate
      simp only [hurl, hresp, authHttpRequest]
      rw [if_pos hcond]
    rw [hA]
    refine ⟨rfl, ?_, rfl, rfl⟩
    intro msg hmsg
    have hm : msg = "authentication failed with status " ++ renderStatus status ++ ": " ++ body :=
      (Option.some.inj hmsg).symm
    exact ⟨"authentication failed with status " ++ renderStatus status ++ ": ", "",
      by rw [hm]; simp⟩
  · unfold Authenticate
    simp only [hurl, hresp, authHttpRequest]
    split
    · rfl
    · cases env.decodeAuthResponse body <;> rfl

/-- Witness for the amended C14: the authentication answered 201 with a body
decoding to the token fresh. -/
theorem authenticate_on_response_witness :
    (Authenticate (envAnswering 201 "") sessionNoToken).1 = none
    ∧ (Authenticate (envAnswering 201 "") sessionNoToken).2.client.Token = "fresh" :=
  have h := (authenticate_on_response (envAnswering 201 "") sessionNoToken 201 "" rfl rfl).1
    (Or.inr rfl) "fresh" rfl
  ⟨h.1, h.2.2⟩


/-! ## Read: the failures of getPool -/

/-- A text that starts with a character other than `p` is not the not-found text. -/
theorem text_ne_pool_not_found (a b : String) (c : Char) (l : List Char)
    (ha : a.data = c :: l) (hc : c ≠ 'p') : a ++ b ≠ "pool not found" := by
  intro h
  have h1 := congrArg String.data h
  have h3 : "pool not found".data = 'p' :: "ool not found".data := rfl
  rw [String.data_append, ha, h3] at h1
  simp only [List.cons_append, List.cons.injEq] at h1
  exact hc h1.1

/-- No error of `Authenticate` reads as the not-found text. -/
theorem Authenticate_error_ne (env : Env) (w : World) (e : String)
    (h : (Authenticate env w).1 = some e) : e ≠ "pool not found" := by
  unfold Authenticate at h
  cases hreq : env.newRequestError "POST" (w.client.Endpoint ++ "/api/auth") with
  | some err =>
    simp only [hreq, Option.some.injEq] at h
    rw [← h]
    exact text_ne_pool_not_found _ _ 'f' _ rfl (by decide)
  | none =>
    simp only [hreq] at h
    cases hrt : env.roundTrip w.sent
        { method := "POST", url := w.client.Endpoint ++ "/api/auth",
          headers := [("Content-Type", "application/json")],
          body := renderObject [("username", .str w.client.Username),
            ("password", .str w.client.Password)] } with
    | transportError err =>
      simp only [hrt, Option.some.injEq] at h
      rw [← h]
      exact text_ne_pool_not_found _ _ 'a' _ rfl (by decide)
    | response status respBody =>
      simp only [hrt] at h
      split at h
      · simp only [Option.some.injEq] at h
        rw [← h, String.append_assoc, String.append_assoc]
        exact text_ne_pool_not_found _ _ 'a' _ rfl (by decide)
      · cases hdec : env.decodeAuthResponse respBody with
        | error err =>
          simp only [hdec, Option.some.injEq] at h
          rw [← h]
          exact text_ne_pool_not_found _ _ 'f' _ rfl (by decide)
        | ok token => simp [hdec] at h

/-- An error of `GetPool` reads as the not-found text exactly when the GET was
answered 404. -/
theorem GetPool_error_iff (env : Env) (w w1 : World) (poolName err : String)
    (h : GetPool env w poolName = (.error err, w1)) :
    err = "pool not found" ↔ answeredNotFound env w poolName = true := by
  unfold GetPool at h
  unfold answeredNotFound
  cases hens : ensureToken env w with
  | mk r w0 =>
    cases r with
    | some e =>
      simp only [hens, Prod.mk.injEq, Except.error.injEq] at h
      have hne : e ≠ "pool not found" := by
        unfold ensureToken at hens
        split at hens
        · exact Authenticate_error_ne env w e (by rw [hens])
        · simp at hens
      simp [← h.1, hne]
    | none =>
      simp only [hens] at h
      cases hreq : env.newRequestError "GET" (w0.client.Endpoint ++ "/api/pool/" ++ poolName) with
      | some e =>
        simp only [hreq, Prod.mk.injEq, Except.error.injEq] at h
        have hne := text_ne_pool_not_found "failed to create get pool request: " e 'f' _ rfl
          (by decide)
        simp [← h.1, hne, hreq]
      | none =>
        simp only [hreq] at h
        simp only [getPoolHttpRequest]
        cases hrt : env.roundTrip w0.sent
            { method := "GET", url := w0.client.Endpoint ++ "/api/pool/" ++ poolName,
              headers := [("Authorization", "Bearer " ++ w0.client.Token)], body := "" } with
        | transportError e =>
          simp only [hrt, Prod.mk.injEq, Except.error.injEq] at h
          have hne := text_ne_pool_not_found "get pool request failed: " e 'g' _ rfl (by decide)
          simp [← h.1, hne, hreq, hrt, getPoolHttpRequest]
        | response status respBody =>
          simp only [hrt] at h
          by_cases h404 : status = 404
          · simp only [h404, if_true, Prod.mk.injEq, Except.error.injEq] at h
            simp [← h.1, h404, hreq, hrt, getPoolHttpRequest]
          · simp only [h404, if_false] at h
            split at h
            · simp only [Prod.mk.injEq, Except.error.injEq] at h
              have hne := text_ne_pool_not_found "failed to get pool with status "
                (renderStatus status ++ (": " ++ respBody)) 'f' _ rfl (by decide)
              rw [← String.append_assoc, ← String.append_assoc] at hne
              simp [← h.1, hne, h404, hreq, hrt, getPoolHttpRequest]
            · cases hdec : env.decodePool respBody with
              | error e =>
                simp only [hdec, Prod.mk.injEq, Except.error.injEq] at h
                have hne := text_ne_pool_not_found "failed to decode pool response: " e 'f' _ rfl
                  (by decide)
                simp [← h.1, hne, h404, hreq, hrt, getPoolHttpRequest]
              | ok pool => simp [hdec] at h

/-- When `GetPool` returns a payload, its GET was not answered 404. -/
theorem GetPool_ok_answered (env : Env) (w w1 : World) (poolName : String) (poolData : PoolData)
    (h : GetPool env w poolName = (.ok poolData, w1)) :
    answeredNotFound env w poolName = false := by
  unfold GetPool at h
  unfold answeredNotFound
  cases hens : ensureToken env w with
  | mk r w0 =>
    cases r with
    | some e => rfl
    | none =>
      simp only [hens] at h
      cases hreq : env.newRequestError "GET" (w0.client.Endpoint ++ "/api/pool/" ++ poolName) with
      | some e => simp [hreq]
      | none =>
        simp only [hreq] at h
        simp only [getPoolHttpRequest]
        cases hrt : env.roundTrip w0.sent
            { method := "GET", url := w0.client.Endpoint ++ "/api/pool/" ++ poolName,
              headers := [("Authorization", "Bearer " ++ w0.client.Token)], body := "" } with
        | transportError e => simp [hreq, hrt, getPoolHttpRequest]
        | response status respBody =>
          simp only [hrt] at h
          by_cases h404 : status = 404
          · simp [h404, hreq, hrt, getPoolHttpRequest] at h
          · simp [h404, hreq, hrt, getPoolHttpRequest]


/-- C15: `Read` signals removal exactly when the GET of getPool was answered
404; for every other failure of getPool (authentication failure, request not
built, transport failure, any non-200 status other than 404, undecodable
body) the error text differs from the not-found text, and `Read` records
exactly one error diagnostic, which names the pool and carries that error,
does not signal removal, and saves no state. -/
theorem read_recovers_only_not_found (env : Env) (w : World) (state : PoolResourceModel) :
    ((Read env w state).removed = true ↔ answeredNotFound env w state.Name.ValueString = true)
    ∧ (∀ err w1, GetPool env w state.Name.ValueString = (.error err, w1) →
        answeredNotFound env w state.Name.ValueString = false →
        err ≠ "pool not found"
        ∧ (Read env w state).removed = false
        ∧ (Read env w state).diagnostics =
            [{ severity := .error, summary := "Error Reading Ceph Pool",
               detail := "Could not read pool " ++ state.Name.ValueString ++ ": " ++ err }]
        ∧ containsText ("Could not read pool " ++ state.Name.ValueString ++ ": " ++ err)
            state.Name.ValueString
        ∧ HasError (Read env w state).diagnostics = true
        ∧ (Read env w state).state = none) := by
  refine ⟨?_, ?_⟩
  · cases hget : GetPool env w state.Name.ValueString with
    | mk r w1 =>
      cases r with
      | error err =>
        have hiff := GetPool_error_iff env w w1 _ err hget
        by_cases herr : err = "pool not found"
        · simp [Read, hget, herr, ← hiff]
        · have hno : ¬ answeredNotFound env w state.Name.ValueString = true :=
            fun h => herr (hiff.2 h)
          simp [Read, hget, herr, hno]
      | ok poolData =>
        have hno := GetPool_ok_answered env w w1 _ poolData hget
        simp [Read, hget, hno]
  · intro err w1 hget hnot
    have hiff := GetPool_error_iff env w w1 _ err hget
    have herr : err ≠ "pool not found" := by
      intro h
      rw [hiff.1 h] at hnot
      exact absurd hnot (by simp)
    refine ⟨herr, ?_, ?_, ?_, ?_, ?_⟩
    · simp [Read, hget, herr]
    · simp [Read, hget, herr, AddError]
    · exact ⟨"Could not read pool ", ": " ++ err, by simp [String.append_assoc]⟩
    · simp [Read, hget, herr, AddError, HasError]
    · simp [Read, hget, herr]

/-- Witness for C15: reading pool-a on a session holding a token, the GET answered 500. -/
theorem read_recovers_only_not_found_witness :
    (Read (envAnswering 500 "boom") sessionWithToken (trackedPool "pool-a")).removed = false
    ∧ (Read (envAnswering 500 "boom") sessionWithToken (trackedPool "pool-a")).diagnostics =
        [{ severity := .error, summary := "Error Reading Ceph Pool",
           detail := "Could not read pool " ++ (trackedPool "pool-a").Name.ValueString ++ ": "
             ++ "failed to get pool with status 500: boom" }] :=
  have h := (read_recovers_only_not_found (envAnswering 500 "boom") sessionWithToken
      (trackedPool "pool-a")).2 "failed to get pool with status 500: boom"
    (sessionWithToken.send (getPoolHttpRequest sessionWithToken.client "pool-a")) rfl (by decide)
  ⟨h.2.1, h.2.2.1⟩


/-! ## Update with nothing to change -/

/-- C16, as stated, fails: pool-a tracked as (replicated, 32, 32, 3), the
desired record leaving size unset and carrying the prior values elsewhere: no
mutable field is set and different, `Update` makes no client call, and the
record it saves has size unset, so it is not the prior record. -/
theorem update_unchanged_counterexample :
    anyChanged { trackedPool "pool-a" with Size := .null } (trackedPool "pool-a") = false
    ∧ (Update (envAnswering 200 "") sessionWithToken
        { trackedPool "pool-a" with Size := .null } (trackedPool "pool-a")).calls = []
    ∧ (Update (envAnswering 200 "") sessionWithToken
        { trackedPool "pool-a" with Size := .null } (trackedPool "pool-a")).state
      = some { trackedPool "pool-a" with Size := .null }
    ∧ (Update (envAnswering 200 "") sessionWithToken
        { trackedPool "pool-a" with Size := .null } (trackedPool "pool-a")).state
      ≠ some (trackedPool "pool-a") := by
  decide

/-- C16, amended: for every desired and prior record for which no mutable field
is both set in the desired record and different from the prior value (desired
records that leave fields unset included), `Update` makes no client call at
all, sends nothing, records no diagnostic, and saves the desired record as it
is; the saved record is the prior record exactly when the desired record
equals it. -/
theorem update_without_changes_saves_plan (env : Env) (w : World) (plan prior : PoolResourceModel)
    (hpg : numberChanged plan.PgNum prior.PgNum = false)
    (hpgp : numberChanged plan.PgpNum prior.PgpNum = false)
    (hsize : numberChanged plan.Size prior.Size = false)
    (happ : applicationChanged plan.Application prior.Application = false) :
    (Update env w plan prior).calls = []
    ∧ (Update env w plan prior).world = w
    ∧ (Update env w plan prior).world.sent = w.sent
    ∧ (Update env w plan prior).diagnostics = []
    ∧ (Update env w plan prior).state = some plan
    ∧ ((Update env w plan prior).state = some prior ↔ plan = prior) := by
  have h : anyChanged plan prior = false := by simp [anyChanged, hpg, hpgp, hsize, happ]
  obtain ⟨h1, h2, h3, h4, _⟩ := Update_unchanged env w plan prior h
  refine ⟨h1, h2, by rw [h2], h4, h3, ?_⟩
  rw [h3]
  exact ⟨fun hs => Option.some.inj hs, fun hp => by rw [hp]⟩

/-- Witness for the amended C16: pool-a tracked as (replicated, 32, 32, 3), the
desired record leaving size unset. -/
theorem update_without_changes_saves_plan_witness :
    (Update (envAnswering 200 "") sessionWithToken
        { trackedPool "pool-a" with Size := .null } (trackedPool "pool-a")).calls = []
    ∧ (Update (envAnswering 200 "") sessionWithToken
        { trackedPool "pool-a" with Size := .null } (trackedPool "pool-a")).state
      = some { trackedPool "pool-a" with Size := .null } :=
  have h := update_without_changes_saves_plan (envAnswering 200 "") sessionWithToken
    { trackedPool "pool-a" with Size := .null } (trackedPool "pool-a")
    (by decide) (by decide) (by decide) (by decide)
  ⟨h.1, h.2.2.2.2.1⟩


/-! ## Create: unknown fields and zero values -/

/-- C17: `Create` applies a default only to a null field.  For every plan: a
field that is unknown resolves to the zero value, pool_type and application to
the empty string and pg_num, pgp_num and size to 0 (pgp_num whatever pg_num
resolves to); a null field resolves to replicated / 32 / the resolved pg_num /
3 / empty; a known field is kept; the resolved request is what `Create` passes
to createPool; and a plan with every optional field unknown resolves to
(empty type, 0, 0, 0, empty application). -/
theorem create_unknown_resolves_to_zero (env : Env) (w : World) (plan : PoolResourceModel)
    (s : String) (n : Int) (name : String) :
    ((createRequest { plan with PoolType := .unknown }).PoolType = ""
      ∧ (createRequest { plan with PgNum := .unknown }).PgNum = 0
      ∧ (createRequest { plan with PgpNum := .unknown }).PgpNum = 0
      ∧ (createRequest { plan with Size := .unknown }).Size = 0
      ∧ (createRequest { plan with Application := .unknown }).Application = "")
    ∧ ((createRequest { plan with PoolType := .null }).PoolType = "replicated"
      ∧ (createRequest { plan with PgNum := .null }).PgNum = 32
      ∧ (createRequest { plan with PgpNum := .null }).PgpNum = (createRequest plan).PgNum
      ∧ (createRequest { plan with Size := .null }).Size = 3
      ∧ (createRequest { plan with Application := .null }).Application = "")
    ∧ ((createRequest { plan with PoolType := .value s }).PoolType = s
      ∧ (createRequest { plan with PgNum := .value n }).PgNum = n
      ∧ (createRequest { plan with PgpNum := .value n }).PgpNum = n
      ∧ (createRequest { plan with Size := .value n }).Size = n
      ∧ (createRequest { plan with Application := .value s }).Application = s)
    ∧ ((Create env w plan).calls.map Prod.fst).head? = some (.createPool (createRequest plan))
    ∧ createRequest (planAllUnknown name) =
        { Pool := name, PoolType := "", PgNum := 0, PgpNum := 0, Size := 0, Application := "" }
    ∧ createdState (planAllUnknown name) (createRequest (planAllUnknown name)) =
        { ID := .value name, Name := .value name, PoolType := .value "", PgNum := .value 0,
          PgpNum := .value 0, Size := .value 0, Application := .unknown } := by
  refine ⟨⟨rfl, rfl, rfl, rfl, rfl⟩, ⟨rfl, rfl, rfl, rfl, rfl⟩, ⟨rfl, rfl, rfl, rfl, rfl⟩,
    Create_calls_head env w plan, rfl, ?_⟩
  simp [createdState, createRequest, planAllUnknown, TfString.IsNull, TfString.ValueString,
    TfInt64.IsNull, TfInt64.ValueInt64]

/-- The entry `json.Marshal` writes for each numeric field of a pool request:
none when the field is zero, the number otherwise. -/
theorem poolCreateFields_lookup (r : PoolCreateRequest) :
    (poolCreateFields r).lookup "pg_num" = (if r.PgNum = 0 then none else some (.num r.PgNum))
    ∧ (poolCreateFields r).lookup "pgp_num" = (if r.PgpNum = 0 then none else some (.num r.PgpNum))
    ∧ (poolCreateFields r).lookup "size" = (if r.Size = 0 then none else some (.num r.Size)) := by
  unfold poolCreateFields
  refine ⟨?_, ?_, ?_⟩ <;> split_ifs <;> rfl


/-- C18: for every plan, and for each of pg_num, pgp_num and size: when the
field resolves to 0 the JSON object sent to POST /api/pool has no entry for
that key while the record `Create` saves reports the field as 0; when it
resolves to a non-zero number the object and the record carry that same
number.  The record is the one `Create` saves when createPool succeeds, and
the object is the body of the request createPool sends once the lazy
authentication has passed and the request is built. -/
theorem create_body_omits_zero (env : Env) (w w0 : World) (plan : PoolResourceModel) :
    BodyOmitsZero ((poolCreateFields (createRequest plan)).lookup "pg_num")
        (createRequest plan).PgNum (createdState plan (createRequest plan)).PgNum
    ∧ BodyOmitsZero ((poolCreateFields (createRequest plan)).lookup "pgp_num")
        (createRequest plan).PgpNum (createdState plan (createRequest plan)).PgpNum
    ∧ BodyOmitsZero ((poolCreateFields (createRequest plan)).lookup "size")
        (createRequest plan).Size (createdState plan (createRequest plan)).Size
    ∧ (Create env w plan).state =
        (if (CreatePool env w (createRequest plan)).1 = none
          then some (createdState plan (createRequest plan)) else none)
    ∧ (ensureToken env w = (none, w0) →
        env.newRequestError "POST" (w0.client.Endpoint ++ "/api/pool") = none →
        (CreatePool env w (createRequest plan)).2.sent = w0.sent ++
          [{ method := "POST", url := w0.client.Endpoint ++ "/api/pool",
             headers := [("Content-Type", "application/json"),
                         ("Authorization", "Bearer " ++ w0.client.Token)],
             body := renderObject (poolCreateFields (createRequest plan)) }]) := by
  obtain ⟨h1, h2, h3⟩ := poolCreateFields_lookup (createRequest plan)
  refine ⟨⟨rfl, ?_, ?_⟩, ⟨rfl, ?_, ?_⟩, ⟨rfl, ?_, ?_⟩, Create_state env w plan, ?_⟩
  · intro h; rw [h1, if_pos h]
  · intro h; rw [h1, if_neg h]
  · intro h; rw [h2, if_pos h]
  · intro h; rw [h2, if_neg h]
  · intro h; rw [h3, if_pos h]
  · intro h; rw [h3, if_neg h]
  · intro hauth hurl
    exact (CreatePool_sends env w w0 (createRequest plan) hauth hurl).1

/-- Witness for C18: the spec (name = pool-a, pg_num = 0), so that pg_num and
pgp_num resolve to 0: the body sent carries pool, pool_type and size only,
while the saved record reports pg_num = pgp_num = 0. -/
theorem create_body_omits_zero_witness :
    (CreatePool (envAnswering 201 "") sessionWithToken
        (createRequest (PoolSpec.toPlan { PoolSpec.named "pool-a" with pg_num := some 0 } .unknown))).2.sent
      = [{ method := "POST", url := "https://ceph/api/pool",
           headers := [("Content-Type", "application/json"), ("Authorization", "Bearer tok")],
           body := "\x7b\"pool\":\"pool-a\",\"pool_type\":\"replicated\",\"size\":3\x7d" }]
    ∧ (Create (envAnswering 201 "") sessionWithToken
        (PoolSpec.toPlan { PoolSpec.named "pool-a" with pg_num := some 0 } .unknown)).state
      = some { ID := .value "pool-a", Name := .value "pool-a", PoolType := .value "replicated",
               PgNum := .value 0, PgpNum := .value 0, Size := .value 3, Application := .null } :=
  have h := create_body_omits_zero (envAnswering 201 "") sessionWithToken sessionWithToken
    (PoolSpec.toPlan { PoolSpec.named "pool-a" with pg_num := some 0 } .unknown)
  ⟨h.2.2.2.2 rfl rfl, h.2.2.2.1.trans (by decide)⟩

end CephProvider
